import Mathlib

/-!
Verification development for the MULTIAGENTES_SP traffic visualization client.

The source is a JavaScript WebGL client that polls a traffic-simulation
server and reconciles the returned snapshots (cars, traffic lights,
obstacles, roads, destinations) into a 3D scene.  The development below is a
shallow embedding of the relevant functions:

* api_connection_traffic.js: getCars, getObstacles, getTrafficLights,
  getRoads, getDestinations, update, initTrafficModel;
* the main scene file: lerp, lerpAngle, updateCarRotation, updateCars,
  interpolateCars, updateTrafficLightSpheres, the drawScene interpolation
  fraction, and the DIRECTION_ROTATIONS table;
* obj_loader.js: loadMtl, loadObjWithMtl, preloadModel, getCachedModel and
  the model cache.

JavaScript numbers are idealized as exact rationals (ℚ); Math.PI is taken
at the exact rational value of its IEEE-754 double.  Math.atan2 is an
external math-library function and is passed around as an uninterpreted
function argument.  The Scene3D and Object3D classes are not part of the
sources; the parts of their behaviour that the theorems need are modelled
from the specification (see the doc comments marked "Modelled from the
spec").
-/

namespace Traffic

/-- A 3-component vector of exact rationals; models the x/y/z position,
rotation and scale records of the visualization. -/
structure Vec3 where
  x : ℚ
  y : ℚ
  z : ℚ
deriving DecidableEq

/-- Entity identifier as reported by the traffic server (a JS number).
JS truthiness of an id corresponds to the id being nonzero; the string ids
of decorative scene objects (grass tiles, trees, buildings, light spheres)
are represented as further nonzero integers, since every nonempty string is
truthy and distinct from every numeric id. -/
abbrev EntId := Int

/-- Exact rational value of the IEEE-754 double Math.PI used by the source
(884279719003555 * 2 ^ (-48)). -/
def piQ : ℚ := 884279719003555 / 281474976710656

theorem piQ_pos : 0 < piQ := by norm_num [piQ]

/-- Linear interpolation from the scene file: start + (end - start) * t. -/
def lerp (s e t : ℚ) : ℚ := s + (e - s) * t

theorem two_piQ_pos : 0 < 2 * piQ := by norm_num [piQ]

/-- Termination measure step for the first while loop of lerpAngle. -/
theorem ceil_measure_lt {d : ℚ} (h : piQ < d) :
    (⌈(d - 2 * piQ) / (2 * piQ)⌉).toNat < (⌈d / (2 * piQ)⌉).toNat := by
  have h2 : (0 : ℚ) < 2 * piQ := two_piQ_pos
  have e1 : (d - 2 * piQ) / (2 * piQ) = d / (2 * piQ) - 1 := by
    field_simp
  have e2 : ⌈(d - 2 * piQ) / (2 * piQ)⌉ = ⌈d / (2 * piQ)⌉ - 1 := by
    rw [e1, Int.ceil_sub_one]
  have hp : 0 < ⌈d / (2 * piQ)⌉ :=
    Int.ceil_pos.mpr (div_pos (lt_trans piQ_pos h) h2)
  omega

/-- Termination measure step for the second while loop of lerpAngle. -/
theorem ceil_measure_lt' {d : ℚ} (h : d < -piQ) :
    (⌈-(d + 2 * piQ) / (2 * piQ)⌉).toNat < (⌈-d / (2 * piQ)⌉).toNat := by
  have h2 : (0 : ℚ) < 2 * piQ := two_piQ_pos
  have e1 : -(d + 2 * piQ) / (2 * piQ) = -d / (2 * piQ) - 1 := by
    field_simp
    ring
  have e2 : ⌈-(d + 2 * piQ) / (2 * piQ)⌉ = ⌈-d / (2 * piQ)⌉ - 1 := by
    rw [e1, Int.ceil_sub_one]
  have hp : 0 < ⌈-d / (2 * piQ)⌉ := by
    apply Int.ceil_pos.mpr
    apply div_pos _ h2
    have := piQ_pos
    linarith
  omega

/-- First while loop of lerpAngle: while (diff > PI) diff -= 2 * PI. -/
def reduceDown (d : ℚ) : ℚ :=
  if piQ < d then reduceDown (d - 2 * piQ) else d
termination_by (⌈d / (2 * piQ)⌉).toNat
decreasing_by exact ceil_measure_lt (by assumption)

/-- Second while loop of lerpAngle: while (diff < -PI) diff += 2 * PI. -/
def reduceUp (d : ℚ) : ℚ :=
  if d < -piQ then reduceUp (d + 2 * piQ) else d
termination_by (⌈-d / (2 * piQ)⌉).toNat
decreasing_by exact ceil_measure_lt' (by assumption)

/-- The normalized angle delta computed by the two while loops in
lerpAngle. -/
def normalizeDelta (d : ℚ) : ℚ := reduceUp (reduceDown d)

/-- Angle interpolation from the scene file, with the two wraparound while
loops expressed by reduceDown and reduceUp:
let diff = end - start (normalized); return start + diff * t. -/
def lerpAngle (s e t : ℚ) : ℚ := s + normalizeDelta (e - s) * t

theorem reduceDown_of_le {d : ℚ} (h : d ≤ piQ) : reduceDown d = d := by
  rw [reduceDown]
  simp [not_lt.mpr h]

theorem reduceUp_of_le {d : ℚ} (h : -piQ ≤ d) : reduceUp d = d := by
  rw [reduceUp]
  simp [not_lt.mpr h]

theorem reduceDown_le (d : ℚ) : reduceDown d ≤ piQ := by
  rw [reduceDown]
  split
  · exact reduceDown_le (d - 2 * piQ)
  · exact le_of_not_lt (by assumption)
termination_by (⌈d / (2 * piQ)⌉).toNat
decreasing_by exact ceil_measure_lt (by assumption)

theorem reduceDown_gt {d : ℚ} (h : -piQ < d) : -piQ < reduceDown d := by
  rw [reduceDown]
  split
  · next hgt =>
    apply reduceDown_gt
    have := piQ_pos
    linarith
  · exact h
termination_by (⌈d / (2 * piQ)⌉).toNat
decreasing_by exact ceil_measure_lt (by assumption)

theorem reduceDown_congr (d : ℚ) : ∃ k : ℤ, reduceDown d = d - 2 * piQ * k := by
  rw [reduceDown]
  split
  · obtain ⟨k, hk⟩ := reduceDown_congr (d - 2 * piQ)
    exact ⟨k + 1, by push_cast [hk]; ring⟩
  · exact ⟨0, by ring⟩
termination_by (⌈d / (2 * piQ)⌉).toNat
decreasing_by exact ceil_measure_lt (by assumption)

theorem reduceUp_ge (d : ℚ) : -piQ ≤ reduceUp d := by
  rw [reduceUp]
  split
  · exact reduceUp_ge (d + 2 * piQ)
  · exact le_of_not_lt (by assumption)
termination_by (⌈-d / (2 * piQ)⌉).toNat
decreasing_by exact ceil_measure_lt' (by assumption)

theorem reduceUp_le {d : ℚ} (h : d ≤ piQ) : reduceUp d ≤ piQ := by
  rw [reduceUp]
  split
  · next hlt =>
    apply reduceUp_le
    have := piQ_pos
    linarith
  · exact h
termination_by (⌈-d / (2 * piQ)⌉).toNat
decreasing_by exact ceil_measure_lt' (by assumption)

theorem reduceUp_congr (d : ℚ) : ∃ k : ℤ, reduceUp d = d + 2 * piQ * k := by
  rw [reduceUp]
  split
  · obtain ⟨k, hk⟩ := reduceUp_congr (d + 2 * piQ)
    exact ⟨k + 1, by push_cast [hk]; ring⟩
  · exact ⟨0, by ring⟩
termination_by (⌈-d / (2 * piQ)⌉).toNat
decreasing_by exact ceil_measure_lt' (by assumption)

theorem normalizeDelta_mem (d : ℚ) :
    -piQ ≤ normalizeDelta d ∧ normalizeDelta d ≤ piQ := by
  exact ⟨reduceUp_ge _, reduceUp_le (reduceDown_le d)⟩

theorem normalizeDelta_congr (d : ℚ) :
    ∃ k : ℤ, normalizeDelta d = d + 2 * piQ * k := by
  obtain ⟨k1, h1⟩ := reduceDown_congr d
  obtain ⟨k2, h2⟩ := reduceUp_congr (reduceDown d)
  exact ⟨k2 - k1, by rw [normalizeDelta, h2, h1]; push_cast; ring⟩

/-! ### Constants of the scene file -/

/-- GLOBAL_SCALE = 1.5. -/
def GLOBAL_SCALE : ℚ := 3 / 2

/-- CAR_Y_OFFSET = 0.30 (cars are raised so they do not sink into the
ground). -/
def CAR_Y_OFFSET : ℚ := 3 / 10

/-- CAR_Z_OFFSET = -0.15. -/
def CAR_Z_OFFSET : ℚ := -(3 / 20)

/-- duration = 500 milliseconds between server updates (main scene file). -/
def duration : ℚ := 500

/-- The interpolation fraction computed each frame by drawScene:
fract = Math.min(1.0, elapsed / duration). -/
def drawFract (elapsed : ℚ) : ℚ := min 1 (elapsed / duration)

/-- The DIRECTION_ROTATIONS table of the scene file:
Up ↦ PI, Down ↦ 0, Left ↦ PI / 2, Right ↦ -PI / 2; other strings are not
own properties of the table. -/
def DIRECTION_ROTATIONS : String → Option ℚ
  | "Up" => some piQ
  | "Down" => some 0
  | "Left" => some (piQ / 2)
  | "Right" => some (-(piQ / 2))
  | _ => none

/-- The scale record assigned to cars by updateCars:
{ x: 0.002 * GLOBAL_SCALE, y: 0.002 * GLOBAL_SCALE, z: 0.0015 * GLOBAL_SCALE }. -/
def carScaleRec : Vec3 :=
  ⟨(2 / 1000) * GLOBAL_SCALE, (2 / 1000) * GLOBAL_SCALE, (15 / 10000) * GLOBAL_SCALE⟩

/-! ### Data model

One entry of a server response, and the Object3D instances the client keeps
in its api_connection arrays. -/

/-- One element of the getCars response positions array. -/
structure CarData where
  id : EntId
  x : ℚ
  y : ℚ
  z : ℚ
  direction : Option String
  futureX : ℚ
  futureZ : ℚ
deriving DecidableEq

/-- Modelled from the spec: the Object3D entity class is not among the
source files; its fields are reconstructed from the specification data
model (§3, Entity) and from how the source functions read and write the
object.  A Car is the Object3D kept in the cars array: position (posArray
is the array view of position), the previous sample oldPosArray, the
reported direction, the futurePos hint, the mesh handle (vao, none until
updateCars assigns a car model), the currentRotY/targetRotY yaw fields
added by the scene file, the derived renderPos, and the rotation record
rotRad. -/
structure Car where
  id : EntId
  position : Vec3
  oldPosArray : Option Vec3
  direction : Option String
  futurePos : Vec3
  color : List ℚ
  vao : Option Nat
  scale : Option Vec3
  currentRotY : Option ℚ
  targetRotY : Option ℚ
  renderPos : Option Vec3
  rotRad : Vec3
deriving DecidableEq

/-- One element of the getTrafficLights response positions array. -/
structure LightData where
  id : EntId
  x : ℚ
  y : ℚ
  z : ℚ
  state : Bool
deriving DecidableEq

/-- The Object3D kept in the trafficLights array (see the Car doc comment;
modelled from the spec for the parts outside the sources). -/
structure Light where
  id : EntId
  position : Vec3
  state : Bool
  color : List ℚ
deriving DecidableEq

/-- One element of a static-category response (obstacles, roads,
destinations); roads also carry a direction. -/
structure StaticData where
  id : EntId
  x : ℚ
  y : ℚ
  z : ℚ
  direction : Option String
deriving DecidableEq

/-- The Object3D kept in the obstacles / roads / destinations arrays. -/
structure StaticObj where
  id : EntId
  position : Vec3
  direction : Option String
  color : List ℚ
deriving DecidableEq

/-! ### getCars (api_connection_traffic.js) -/

/-- The new Object3D built by getCars for a car id that is not yet
tracked: position = reported position, oldPosArray initialized to the same
position, futurePos = { x: futureX, y: car.y, z: futureZ }, color red. -/
def mkNewCar (d : CarData) : Car :=
  { id := d.id
    position := ⟨d.x, d.y, d.z⟩
    oldPosArray := some ⟨d.x, d.y, d.z⟩
    direction := d.direction
    futurePos := ⟨d.futureX, d.y, d.futureZ⟩
    color := [1, 0, 0, 1]
    vao := none
    scale := none
    currentRotY := none
    targetRotY := none
    renderPos := none
    rotRad := ⟨0, 0, 0⟩ }

/-- The in-place update getCars performs on a tracked car: shift posArray
into oldPosArray, take position / direction from the snapshot entry, and
store the future-position hint. -/
def updateExistingCar (c : Car) (d : CarData) : Car :=
  { c with
    oldPosArray := some c.position
    position := ⟨d.x, d.y, d.z⟩
    direction := d.direction
    futurePos := ⟨d.futureX, d.y, d.futureZ⟩ }

/-- cars.find followed by the in-place update: the first car whose id
matches the snapshot entry is updated, the rest are untouched. -/
def updFirstCar : List Car → CarData → List Car
  | [], _ => []
  | c :: rest, d =>
    if c.id = d.id then updateExistingCar c d :: rest
    else c :: updFirstCar rest d

/-- The body of the per-entry loop of getCars: if a tracked car has the
entry's id it is updated in place, otherwise a new car is pushed. -/
def applyCarEntry (cs : List Car) (d : CarData) : List Car :=
  if cs.any (fun c => c.id = d.id) then updFirstCar cs d
  else cs ++ [mkNewCar d]

/-- The successful-response body of getCars: first splice out every tracked
car whose id is not in the snapshot, then walk the snapshot entries,
updating tracked cars in place and pushing new ones. -/
def getCarsBody (s : List CarData) (cs : List Car) : List Car :=
  let serverCarIds := s.map (fun d => d.id)
  let kept := cs.filter (fun c => c.id ∈ serverCarIds)
  s.foldl applyCarEntry kept

/-! ### getTrafficLights, updateTrafficLightSpheres -/

/-- Color pushed by getTrafficLights for state true (green). -/
def lightOnColor : List ℚ := [0, 1, 0, 1]

/-- Color pushed by getTrafficLights for state false (red). -/
def lightOffColor : List ℚ := [1, 0, 0, 1]

/-- The new Object3D built by getTrafficLights on first population. -/
def mkNewLight (d : LightData) : Light :=
  { id := d.id
    position := ⟨d.x, d.y, d.z⟩
    state := d.state
    color := if d.state then lightOnColor else lightOffColor }

/-- The in-place state/color update getTrafficLights performs on a tracked
light. -/
def applyLightState (l : Light) (d : LightData) : Light :=
  { l with
    state := d.state
    color := if d.state then lightOnColor else lightOffColor }

/-- trafficLights.find followed by the in-place state/color update; a
response id that is not tracked is ignored. -/
def updFirstLight : List Light → LightData → List Light
  | [], _ => []
  | l :: rest, d =>
    if l.id = d.id then applyLightState l d :: rest
    else l :: updFirstLight rest d

/-- The successful-response body of getTrafficLights: populate the array on
the first call (trafficLights.length == 0), afterwards only update the
state and color of already-tracked ids. -/
def getTrafficLightsBody (s : List LightData) (ls : List Light) : List Light :=
  if ls.isEmpty then s.map mkNewLight
  else s.foldl updFirstLight ls

/-- The material records of a traffic-light indicator sphere (color,
diffuseColor, ambientColor), as set in setupObjects and
updateTrafficLightSpheres. -/
structure SphereCols where
  color : List ℚ
  diffuseColor : List ℚ
  ambientColor : List ℚ
deriving DecidableEq

/-- Sphere materials for state true (green glow). -/
def sphereOnCols : SphereCols :=
  { color := [1/5, 1, 1/5, 1]
    diffuseColor := [3/10, 6/5, 3/10, 1]
    ambientColor := [1/10, 1/2, 1/10, 1] }

/-- Sphere materials for state false (red glow). -/
def sphereOffCols : SphereCols :=
  { color := [1, 1/5, 1/10, 1]
    diffuseColor := [6/5, 3/10, 3/20, 1]
    ambientColor := [1/2, 1/10, 1/20, 1] }

/-- trafficLightSpheres.get(light.id) followed by the in-place color
update; the map is represented as an association list keyed by light id. -/
def updateSphereForLight (l : Light) (sps : List (EntId × SphereCols)) :
    List (EntId × SphereCols) :=
  sps.map (fun p =>
    if p.1 = l.id then (p.1, if l.state then sphereOnCols else sphereOffCols)
    else p)

/-- updateTrafficLightSpheres from the scene file: recolor the indicator
sphere of every tracked light according to its current state. -/
def updateTrafficLightSpheres (ls : List Light)
    (sps : List (EntId × SphereCols)) : List (EntId × SphereCols) :=
  ls.foldl (fun acc l => updateSphereForLight l acc) sps

/-! ### Static categories (obstacles, roads, destinations) -/

/-- The successful-response body of getObstacles: push every reported
obstacle (dark gray). -/
def getObstaclesBody (s : List StaticData) (l : List StaticObj) : List StaticObj :=
  l ++ s.map (fun d => ⟨d.id, ⟨d.x, d.y, d.z⟩, none, [3/10, 3/10, 3/10, 1]⟩)

/-- The successful-response body of getRoads: push every reported road with
its direction (light gray). -/
def getRoadsBody (s : List StaticData) (l : List StaticObj) : List StaticObj :=
  l ++ s.map (fun d => ⟨d.id, ⟨d.x, d.y, d.z⟩, d.direction, [3/5, 3/5, 3/5, 1]⟩)

/-- The successful-response body of getDestinations: push every reported
destination (green). -/
def getDestinationsBody (s : List StaticData) (l : List StaticObj) : List StaticObj :=
  l ++ s.map (fun d => ⟨d.id, ⟨d.x, d.y, d.z⟩, none, [0, 1, 0, 1]⟩)

/-! ### updateCarRotation, interpolateCars (scene file)

Math.atan2 is an external math-library function; it is passed as the
uninterpreted argument atan2f. -/

/-- updateCarRotation from the scene file.  If the car has oldPosArray and
posArray (posArray always exists), the target yaw is set from the observed
displacement when one of its components exceeds 0.01; otherwise the car is
left unchanged.  Only a car without a previous position sample falls back
to the DIRECTION_ROTATIONS table (and only when its direction is a truthy
own property of the table). -/
def updateCarRotation (atan2f : ℚ → ℚ → ℚ) (car : Car) : Car :=
  match car.oldPosArray with
  | some oldPos =>
    let dx := car.position.x - oldPos.x
    let dz := car.position.z - oldPos.z
    if 1 / 100 < |dx| ∨ 1 / 100 < |dz| then
      { car with targetRotY := some (atan2f dx dz) }
    else car
  | none =>
    match car.direction with
    | some dir =>
      match DIRECTION_ROTATIONS dir with
      | some a => { car with targetRotY := some a }
      | none => car
    | none => car

/-- The per-car body of interpolateCars: cars without oldPosArray are
skipped; otherwise renderPos is the linear interpolation of
oldPosArray → posArray on x and z (y taken from the current sample), plus
the constant car display offsets, and the yaw is advanced by lerpAngle
toward targetRotY with fraction min(fract * 2, 1). -/
def interpolateCar (fract : ℚ) (car : Car) : Car :=
  match car.oldPosArray with
  | none => car
  | some oldPos =>
    let interpX := lerp oldPos.x car.position.x fract
    let interpZ := lerp oldPos.z car.position.z fract
    let interpY := car.position.y
    let car1 := { car with
      renderPos := some ⟨interpX, interpY + CAR_Y_OFFSET, interpZ + CAR_Z_OFFSET⟩ }
    match car1.targetRotY with
    | some target =>
      let newRot := lerpAngle (car1.currentRotY.getD 0) target (min (fract * 2) 1)
      { car1 with
        currentRotY := some newRot
        rotRad := { car1.rotRad with y := newRot } }
    | none => car1

/-- interpolateCars from the scene file: the per-car interpolation applied
to every tracked car. -/
def interpolateCars (fract : ℚ) (cars : List Car) : List Car :=
  cars.map (interpolateCar fract)

/-! ### Scene graph and updateCars (scene file)

The Scene3D class is not among the source files; addObject and
removeObject are modelled from the specification (§4.2).  A scene object is
reduced to the two fields updateCars reads: its identity and its mesh
handle (vao). -/

/-- A member of scene.objects, reduced to the fields the reconciliation
reads: identity and mesh handle. -/
structure SceneObj where
  id : EntId
  vao : Nat
deriving DecidableEq

/-- Modelled from the spec (§4.2 Scene Graph): addObject appends the
entity if its identity is not already present, and is an idempotent no-op
on a duplicate identity. -/
def addObject (scene : List SceneObj) (o : SceneObj) : List SceneObj :=
  if scene.any (fun x => x.id = o.id) then scene else scene ++ [o]

/-- Modelled from the spec (§4.2 Scene Graph): removeObject removes by
identity match, no-op if absent. -/
def removeObject (scene : List SceneObj) (i : EntId) : List SceneObj :=
  scene.filter (fun o => ¬ o.id = i)

/-- The retirement phase of updateCars: carsInScene is every scene object
with a truthy id whose vao is one of the preloaded car-model vaos; each of
them whose id is not a currently tracked car id is removed from the scene.
models is the list of car-model vaos (carModels.map(m => m.vao)). -/
def updateCarsRemove (models : List Nat) (currentCarIds : List EntId)
    (scene : List SceneObj) : List SceneObj :=
  let carsInScene := scene.filter (fun o => ¬ o.id = 0 ∧ o.vao ∈ models)
  carsInScene.foldl
    (fun sc o => if o.id ∈ currentCarIds then sc else removeObject sc o.id)
    scene

/-- The per-car phase of updateCars: a car without a vao (and with car
models available) is given a random car model, the car scale and zeroed
yaw fields, and is added to the scene; every car then goes through
updateCarRotation.  pick is the stream of random indices
(Math.floor(Math.random() * carModels.length) for the n-th assignment of
the call), consumed left to right. -/
def assignLoop (models : List Nat) (pick : ℕ → ℕ) (atan2f : ℚ → ℚ → ℚ) :
    List Car → ℕ → List SceneObj → List Car × List SceneObj
  | [], _, sc => ([], sc)
  | car :: rest, n, sc =>
    if car.vao = none ∧ models ≠ [] then
      let vao := models.getD (pick n % models.length) 0
      let car1 := { car with
        vao := some vao
        scale := some carScaleRec
        currentRotY := some 0
        targetRotY := some 0 }
      let sc1 := addObject sc ⟨car1.id, vao⟩
      let car2 := updateCarRotation atan2f car1
      let r := assignLoop models pick atan2f rest (n + 1) sc1
      (car2 :: r.1, r.2)
    else
      let car2 := updateCarRotation atan2f car
      let r := assignLoop models pick atan2f rest n sc
      (car2 :: r.1, r.2)

/-- updateCars from the scene file: retire scene cars whose id is no
longer tracked, then assign models to new cars (adding them to the scene)
and refresh every car's rotation. -/
def updateCars (models : List Nat) (pick : ℕ → ℕ) (atan2f : ℚ → ℚ → ℚ)
    (cars : List Car) (scene : List SceneObj) : List Car × List SceneObj :=
  let currentCarIds := cars.map (fun c => c.id)
  let scene1 := updateCarsRemove models currentCarIds scene
  assignLoop models pick atan2f cars 0 scene1

/-! ### World state and the polling tick -/

/-- The client-side collections of api_connection_traffic.js plus the
scene graph and the traffic-light indicator spheres. -/
structure World where
  cars : List Car
  obstacles : List StaticObj
  trafficLights : List Light
  roads : List StaticObj
  destinations : List StaticObj
  scene : List SceneObj
  spheres : List (EntId × SphereCols)
deriving DecidableEq

/-- The network functions wrap their bodies in try/catch and a
response.ok check; a failed call (fetch rejection or non-ok response) is
modelled as a none response: the body is skipped and only the error is
logged. -/
def getCars (r : Option (List CarData)) (w : World) : World :=
  match r with
  | none => w
  | some s => { w with cars := getCarsBody s w.cars }

/-- getObstacles with its try/catch and ok check (see getCars). -/
def getObstacles (r : Option (List StaticData)) (w : World) : World :=
  match r with
  | none => w
  | some s => { w with obstacles := getObstaclesBody s w.obstacles }

/-- getTrafficLights with its try/catch and ok check (see getCars). -/
def getTrafficLights (r : Option (List LightData)) (w : World) : World :=
  match r with
  | none => w
  | some s => { w with trafficLights := getTrafficLightsBody s w.trafficLights }

/-- getRoads with its try/catch and ok check (see getCars). -/
def getRoads (r : Option (List StaticData)) (w : World) : World :=
  match r with
  | none => w
  | some s => { w with roads := getRoadsBody s w.roads }

/-- getDestinations with its try/catch and ok check (see getCars). -/
def getDestinations (r : Option (List StaticData)) (w : World) : World :=
  match r with
  | none => w
  | some s => { w with destinations := getDestinationsBody s w.destinations }

/-- initTrafficModel: POSTs the configuration and logs the
acknowledgement; it touches no client collection, and a failure is caught
and logged. -/
def initTrafficModel (_r : Option String) (w : World) : World := w

/-- update from api_connection_traffic.js: on a successful advance call it
runs getCars and then getTrafficLights (each with its own response); on a
failed advance call nothing happens. -/
def update (ok : Bool) (rc : Option (List CarData))
    (rl : Option (List LightData)) (w : World) : World :=
  if ok then getTrafficLights rl (getCars rc w) else w

/-- One successful polling tick of drawScene once elapsed ≥ duration:
await update() (getCars, getTrafficLights), then updateCars(), then
updateTrafficLightSpheres(). -/
def tick (models : List Nat) (pick : ℕ → ℕ) (atan2f : ℚ → ℚ → ℚ)
    (carSnap : List CarData) (lightSnap : List LightData) (w : World) : World :=
  let w1 := update true (some carSnap) (some lightSnap) w
  let p := updateCars models pick atan2f w1.cars w1.scene
  let w2 := { w1 with cars := p.1, scene := p.2 }
  { w2 with spheres := updateTrafficLightSpheres w2.trafficLights w2.spheres }

/-- A sequence of successful polling ticks, one per car/light snapshot
pair, each with its own stream of random model picks. -/
def tickRun (models : List Nat) (atan2f : ℚ → ℚ → ℚ)
    (steps : List ((List CarData × List LightData) × (ℕ → ℕ))) (w : World) : World :=
  steps.foldl (fun w st => tick models st.2 atan2f st.1.1 st.1.2 w) w

/-! ### obj_loader.js: OBJ/MTL parsing and the model cache

The transport layer (file fetch and line tokenization) is abstracted: an
OBJ file is its list of line records, an MTL file likewise.  All the logic
the source applies to the tokenized lines is kept. -/

/-- One slash-separated vertex reference of a face record; empty slots are
none (the source skips a face vertex whose first slot is empty). -/
structure FaceVert where
  vi : Option ℕ
  ti : Option ℕ
  ni : Option ℕ
deriving DecidableEq

/-- A line record of an OBJ file (v / vn / vt / f / usemtl; any other
keyword falls through the switch). -/
inductive ObjCmd where
  | v (x y z : ℚ)
  | vn (x y z : ℚ)
  | vt (u w : ℚ)
  | f (verts : List FaceVert)
  | usemtl (name : String)
  | other
deriving DecidableEq

/-- A line record of an MTL file. -/
inductive MtlCmd where
  | newmtl (name : String)
  | Ns (x : ℚ)
  | Ka (c : List ℚ)
  | Kd (c : List ℚ)
  | Ks (c : List ℚ)
  | other
deriving DecidableEq

/-- A named material: shininess and ambient/diffuse/specular colors, each
present once the corresponding record has been read. -/
structure Mtl where
  Ns : Option ℚ
  Ka : Option (List ℚ)
  Kd : Option (List ℚ)
  Ks : Option (List ℚ)
deriving DecidableEq

/-- The fresh empty material created by a newmtl record. -/
def emptyMtl : Mtl := ⟨none, none, none, none⟩

/-- Update the materials object at the current material name (records
appearing before any newmtl mutate a local object that is never stored). -/
def mtlMutCurrent (st : List (String × Mtl) × Option String) (f : Mtl → Mtl) :
    List (String × Mtl) :=
  match st.2 with
  | none => st.1
  | some name => st.1.map (fun p => if p.1 = name then (p.1, f p.2) else p)

/-- One line of loadMtl: newmtl installs a fresh entry (replacing a
previous entry of the same name, as JS object assignment does) and makes it
current; the color/shininess records mutate the current entry. -/
def loadMtlStep (st : List (String × Mtl) × Option String) (cmd : MtlCmd) :
    List (String × Mtl) × Option String :=
  match cmd with
  | .newmtl name =>
    let ms :=
      if st.1.any (fun p => p.1 = name) then
        st.1.map (fun p => if p.1 = name then (name, emptyMtl) else p)
      else st.1 ++ [(name, emptyMtl)]
    (ms, some name)
  | .Ns x => (mtlMutCurrent st (fun m => { m with Ns := some x }), st.2)
  | .Ka c => (mtlMutCurrent st (fun m => { m with Ka := some c }), st.2)
  | .Kd c => (mtlMutCurrent st (fun m => { m with Kd := some c }), st.2)
  | .Ks c => (mtlMutCurrent st (fun m => { m with Ks := some c }), st.2)
  | .other => st

/-- loadMtl from obj_loader.js, building the named-materials object. -/
def loadMtl (cmds : List MtlCmd) : List (String × Mtl) :=
  (cmds.foldl loadMtlStep ([], none)).1

/-- The attribute streams returned by the loader (flat, duplicated per
face vertex). -/
structure Arrays where
  a_position : List ℚ
  a_color : List ℚ
  a_normal : List ℚ
  a_texCoord : List ℚ
deriving DecidableEq

/-- The running state of loadObjWithMtl: the index lists (with their dummy
zeroth element), the active material, and the attribute streams built so
far. -/
structure ObjParseState where
  vertices : List (List ℚ)
  normals : List (List ℚ)
  textures : List (List ℚ)
  activeMaterial : Option Mtl
  arrays : Arrays
deriving DecidableEq

/-- One face vertex of loadObjWithMtl: push the referenced position (and
texture/normal when their slots are present), then push the per-vertex
color min(1, Kd[c] * brightness) with alpha 1, or the fixed gray
(0.6, 0.6, 0.6, 1) when no active material has a Kd.  An out-of-range
index would be a TypeError in the JS source; it is defaulted here and not
exercised by any theorem. -/
def pushFaceVert (b : ℚ) (st : ObjParseState) (vert : FaceVert) : ObjParseState :=
  match vert.vi with
  | none => st
  | some i =>
    let arr1 := { st.arrays with
      a_position := st.arrays.a_position ++ st.vertices.getD i [] }
    let arr2 :=
      match vert.ti with
      | some t => { arr1 with a_texCoord := arr1.a_texCoord ++ st.textures.getD t [] }
      | none => arr1
    let arr3 :=
      match vert.ni with
      | some m => { arr2 with a_normal := arr2.a_normal ++ st.normals.getD m [] }
      | none => arr2
    let colorQuad :=
      match st.activeMaterial with
      | some m =>
        match m.Kd with
        | some kd =>
          [min 1 (kd.getD 0 0 * b), min 1 (kd.getD 1 0 * b), min 1 (kd.getD 2 0 * b), 1]
        | none => [3/5, 3/5, 3/5, 1]
      | none => [3/5, 3/5, 3/5, 1]
    { st with arrays := { arr3 with a_color := arr3.a_color ++ colorQuad } }

/-- One line of loadObjWithMtl. -/
def loadObjStep (mats : List (String × Mtl)) (b : ℚ) (st : ObjParseState)
    (cmd : ObjCmd) : ObjParseState :=
  match cmd with
  | .v x y z => { st with vertices := st.vertices ++ [[x, y, z]] }
  | .vn x y z => { st with normals := st.normals ++ [[x, y, z]] }
  | .vt u w => { st with textures := st.textures ++ [[u, w]] }
  | .f verts => verts.foldl (pushFaceVert b) st
  | .usemtl name =>
    match mats.find? (fun p => p.1 = name) with
    | some p => { st with activeMaterial := some p.2 }
    | none => st
  | .other => st

/-- loadObjWithMtl from obj_loader.js: isolated materials from the MTL
text (or none), dummy zeroth index entries, then the line switch. -/
def loadObjWithMtl (obj : List ObjCmd) (mtl : Option (List MtlCmd)) (b : ℚ) :
    Arrays :=
  let modelMaterials := match mtl with | some cmds => loadMtl cmds | none => []
  let init : ObjParseState :=
    { vertices := [[0, 0, 0]]
      normals := [[0, 0, 0]]
      textures := [[0, 0, 0]]
      activeMaterial := none
      arrays := ⟨[], [], [], []⟩ }
  (obj.foldl (loadObjStep modelMaterials b) init).arrays

/-- A cached model handle { arrays, bufferInfo, vao }.  The GPU buffer and
VAO handles are represented by allocId, a fresh allocation number per
build: two handles are reference-equal exactly when they are the same
allocation. -/
structure CachedModel where
  allocId : ℕ
  arrays : Arrays
deriving DecidableEq

/-- The module-level modelCache Map plus the allocation counter for GPU
handles. -/
structure ModelCache where
  entries : List (String × CachedModel)
  nextAlloc : ℕ
deriving DecidableEq

/-- The cache key of preloadModel: the template string
modelName ++ "_" ++ brightnessBoost.  JS number formatting is injective on
distinct numbers, as is the rational formatting used here. -/
def cacheKey (modelName : String) (brightnessBoost : ℚ) : String :=
  modelName ++ "_" ++ toString brightnessBoost

/-- modelCache.get. -/
def cacheLookup (st : ModelCache) (key : String) : Option CachedModel :=
  (st.entries.find? (fun p => p.1 = key)).map (fun p => p.2)

/-- preloadModel from obj_loader.js: return the cached handle when the
(name, brightness) key is present; otherwise fetch the OBJ (a failed fetch
yields null and caches nothing), optionally fetch the MTL, parse, build
fresh GPU buffers (a fresh allocation), and memoize the handle. -/
def preloadModel (st : ModelCache) (modelName : String) (b : ℚ)
    (objResp : Option (List ObjCmd)) (mtlResp : Option (List MtlCmd)) :
    Option CachedModel × ModelCache :=
  let key := cacheKey modelName b
  match cacheLookup st key with
  | some m => (some m, st)
  | none =>
    match objResp with
    | none => (none, st)
    | some objCmds =>
      let arrays := loadObjWithMtl objCmds mtlResp b
      let m : CachedModel := ⟨st.nextAlloc, arrays⟩
      (some m, { entries := st.entries ++ [(key, m)], nextAlloc := st.nextAlloc + 1 })

/-- getCachedModel from obj_loader.js: modelCache.get(key) or null. -/
def getCachedModel (st : ModelCache) (modelName : String) (b : ℚ) :
    Option CachedModel :=
  cacheLookup st (cacheKey modelName b)

/-! ### Lemmas about the getCars reconciliation fold -/

theorem updateExistingCar_id (c : Car) (d : CarData) :
    (updateExistingCar c d).id = c.id := rfl

theorem updateExistingCar_vao (c : Car) (d : CarData) :
    (updateExistingCar c d).vao = c.vao := rfl

theorem updFirstCar_map_id (cs : List Car) (d : CarData) :
    (updFirstCar cs d).map (fun c => c.id) = cs.map (fun c => c.id) := by
  induction cs with
  | nil => rfl
  | cons c rest ih =>
    rw [updFirstCar]
    split
    · next h => simp [updateExistingCar_id, h]
    · simp [ih]

theorem updFirstCar_mem {cs : List Car} {d : CarData} :
    ∀ x ∈ updFirstCar cs d, x ∈ cs ∨ ∃ c ∈ cs, x = updateExistingCar c d := by
  induction cs with
  | nil => simp [updFirstCar]
  | cons c rest ih =>
    rw [updFirstCar]
    split
    · intro x hx
      rcases List.mem_cons.mp hx with h | h
      · exact Or.inr ⟨c, List.mem_cons_self .., h⟩
      · exact Or.inl (List.mem_cons_of_mem _ h)
    · intro x hx
      rcases List.mem_cons.mp hx with h | h
      · exact Or.inl (h ▸ List.mem_cons_self ..)
      · rcases ih x h with h' | ⟨c', hc', he⟩
        · exact Or.inl (List.mem_cons_of_mem _ h')
        · exact Or.inr ⟨c', List.mem_cons_of_mem _ hc', he⟩

theorem applyCarEntry_map_id_of_mem {cs : List Car} {d : CarData}
    (h : d.id ∈ cs.map (fun c => c.id)) :
    (applyCarEntry cs d).map (fun c => c.id) = cs.map (fun c => c.id) := by
  rw [applyCarEntry, if_pos, updFirstCar_map_id]
  simp only [List.any_eq_true, decide_eq_true_eq]
  simp only [List.mem_map] at h
  obtain ⟨c, hc, he⟩ := h
  exact ⟨c, hc, he⟩

theorem applyCarEntry_id_sub {cs : List Car} {d : CarData} :
    ∀ x ∈ applyCarEntry cs d, x.id ∈ cs.map (fun c => c.id) ∨ x.id = d.id := by
  intro x hx
  rw [applyCarEntry] at hx
  split at hx
  · have : x.id ∈ (updFirstCar cs d).map (fun c => c.id) := List.mem_map_of_mem _ hx
    rw [updFirstCar_map_id] at this
    exact Or.inl this
  · rcases List.mem_append.mp hx with h | h
    · exact Or.inl (List.mem_map_of_mem _ h)
    · simp only [List.mem_singleton] at h
      exact Or.inr (by rw [h]; rfl)

theorem id_mem_applyCarEntry {cs : List Car} {d : CarData} {i : EntId}
    (h : i ∈ cs.map (fun c => c.id)) :
    i ∈ (applyCarEntry cs d).map (fun c => c.id) := by
  rw [applyCarEntry]
  split
  · rwa [updFirstCar_map_id]
  · rw [List.map_append]
    exact List.mem_append_left _ h

theorem id_mem_applyCarEntry_self (cs : List Car) (d : CarData) :
    d.id ∈ (applyCarEntry cs d).map (fun c => c.id) := by
  rw [applyCarEntry]
  split
  · next h =>
    rw [updFirstCar_map_id]
    simp only [List.any_eq_true, decide_eq_true_eq] at h
    obtain ⟨c, hc, he⟩ := h
    exact List.mem_map.mpr ⟨c, hc, he⟩
  · simp [mkNewCar]

theorem applyCarEntry_nodup {cs : List Car} {d : CarData}
    (h : (cs.map (fun c => c.id)).Nodup) :
    ((applyCarEntry cs d).map (fun c => c.id)).Nodup := by
  rw [applyCarEntry]
  split
  · rwa [updFirstCar_map_id]
  · next hany =>
    rw [List.map_append]
    simp only [List.map_cons, List.map_nil]
    apply List.Nodup.append h (List.nodup_singleton _)
    intro i hi hi'
    simp only [List.mem_singleton] at hi'
    apply hany
    simp only [List.any_eq_true, decide_eq_true_eq]
    simp only [List.mem_map] at hi
    obtain ⟨c, hc, he⟩ := hi
    exact ⟨c, hc, by rw [he, hi']; rfl⟩

theorem kept_nodup {cs : List Car} (p : Car → Bool)
    (h : (cs.map (fun c => c.id)).Nodup) :
    ((cs.filter p).map (fun c => c.id)).Nodup :=
  ((List.filter_sublist cs).map (fun c => c.id)).nodup h

theorem getCarsBody_nodup {s : List CarData} {cs : List Car}
    (h : (cs.map (fun c => c.id)).Nodup) :
    ((getCarsBody s cs).map (fun c => c.id)).Nodup := by
  refine List.foldlRecOn
    (motive := fun acc => (acc.map (fun c => c.id)).Nodup)
    s applyCarEntry _ (kept_nodup _ h) ?_
  intro acc hacc d _
  exact applyCarEntry_nodup hacc

theorem getCarsBody_id_sub {s : List CarData} {cs : List Car} :
    ∀ c ∈ getCarsBody s cs, c.id ∈ s.map (fun d => d.id) := by
  refine List.foldlRecOn
    (motive := fun acc => ∀ c ∈ acc, c.id ∈ s.map (fun d => d.id))
    s applyCarEntry _ ?_ ?_
  · intro c hc
    have := List.mem_filter.mp hc
    simpa using this.2
  · intro acc hacc d hd c hc
    rcases applyCarEntry_id_sub c hc with h | h
    · obtain ⟨c', hc', he⟩ := List.mem_map.mp h
      exact he ▸ hacc c' hc'
    · exact h ▸ List.mem_map_of_mem _ hd

theorem foldl_id_mem {s : List CarData} {acc : List Car} {i : EntId}
    (h : i ∈ acc.map (fun c => c.id)) :
    i ∈ (s.foldl applyCarEntry acc).map (fun c => c.id) := by
  induction s generalizing acc with
  | nil => exact h
  | cons d rest ih => exact ih (id_mem_applyCarEntry h)

theorem foldl_id_present :
    ∀ (s : List CarData) (acc : List Car), ∀ d ∈ s,
      d.id ∈ (s.foldl applyCarEntry acc).map (fun c => c.id) := by
  intro s
  induction s with
  | nil => simp
  | cons d0 rest ih =>
    intro acc d hd
    simp only [List.foldl_cons]
    rcases List.mem_cons.mp hd with h | h
    · subst h
      exact foldl_id_mem (id_mem_applyCarEntry_self _ _)
    · exact ih _ d h

theorem getCarsBody_id_present {s : List CarData} {cs : List Car} :
    ∀ d ∈ s, d.id ∈ (getCarsBody s cs).map (fun c => c.id) :=
  fun d hd => foldl_id_present s _ d hd

/-- Any property of the vao field that holds for all tracked cars and for
the fresh none of a new car is preserved by the getCars reconciliation. -/
theorem getCarsBody_vao_pres {s : List CarData} {cs : List Car}
    (P : Option Nat → Prop) (hnone : P none) (h : ∀ c ∈ cs, P c.vao) :
    ∀ c' ∈ getCarsBody s cs, P c'.vao := by
  refine List.foldlRecOn
    (motive := fun acc => ∀ c' ∈ acc, P c'.vao)
    s applyCarEntry _ ?_ ?_
  · intro c hc
    exact h c (List.mem_filter.mp hc).1
  · intro acc hacc d _ c' hc'
    rw [applyCarEntry] at hc'
    split at hc'
    · rcases updFirstCar_mem c' hc' with hm | ⟨c, hc, he⟩
      · exact hacc c' hm
      · rw [he, updateExistingCar_vao]
        exact hacc c hc
    · rcases List.mem_append.mp hc' with hm | hm
      · exact hacc c' hm
      · simp only [List.mem_singleton] at hm
        rw [hm]
        exact hnone

/-- A car that leaves the getCars reconciliation with a mesh handle was
already tracked before the call (new cars enter without a handle). -/
theorem getCarsBody_vaoSome_old {s : List CarData} {cs : List Car} :
    ∀ c' ∈ getCarsBody s cs, c'.vao ≠ none → c'.id ∈ cs.map (fun c => c.id) := by
  refine List.foldlRecOn
    (motive := fun acc => ∀ c' ∈ acc, c'.vao ≠ none → c'.id ∈ cs.map (fun c => c.id))
    s applyCarEntry _ ?_ ?_
  · intro c hc _
    exact List.mem_map_of_mem _ (List.mem_filter.mp hc).1
  · intro acc hacc d _ c' hc' hv
    rw [applyCarEntry] at hc'
    split at hc'
    · rcases updFirstCar_mem c' hc' with hm | ⟨c, hc, he⟩
      · exact hacc c' hm hv
      · rw [he, updateExistingCar_id]
        exact hacc c hc (by rw [he, updateExistingCar_vao] at hv; exact hv)
    · rcases List.mem_append.mp hc' with hm | hm
      · exact hacc c' hm hv
      · simp only [List.mem_singleton] at hm
        rw [hm] at hv
        exact absurd rfl hv

/-- A car that leaves the getCars reconciliation without a mesh handle is
new: its id was not tracked before the call (provided all previously
tracked cars had a handle). -/
theorem getCarsBody_vaoNone_fresh {s : List CarData} {cs : List Car}
    (hvao : ∀ c ∈ cs, c.vao ≠ none) :
    ∀ c' ∈ getCarsBody s cs, c'.vao = none → c'.id ∉ cs.map (fun c => c.id) := by
  have main :
      (∀ c' ∈ getCarsBody s cs, c'.vao = none → c'.id ∉ cs.map (fun c => c.id)) ∧
      (∀ i, i ∈ cs.map (fun c => c.id) → i ∈ s.map (fun d => d.id) →
        i ∈ (getCarsBody s cs).map (fun c => c.id)) := by
    refine List.foldlRecOn
      (motive := fun acc =>
        (∀ c' ∈ acc, c'.vao = none → c'.id ∉ cs.map (fun c => c.id)) ∧
        (∀ i, i ∈ cs.map (fun c => c.id) → i ∈ s.map (fun d => d.id) →
          i ∈ acc.map (fun c => c.id)))
      s applyCarEntry _ ⟨?_, ?_⟩ ?_
    · intro c hc hcv
      exact absurd hcv (hvao c (List.mem_filter.mp hc).1)
    · intro i hics his
      obtain ⟨c, hc, he⟩ := List.mem_map.mp hics
      refine List.mem_map.mpr ⟨c, List.mem_filter.mpr ⟨hc, ?_⟩, he⟩
      simp only [decide_eq_true_eq]
      rw [he]
      exact his
    · rintro acc ⟨hacc1, hacc2⟩ d hd
      constructor
      · intro c' hc' hcv
        rw [applyCarEntry] at hc'
        split at hc'
        · rcases updFirstCar_mem c' hc' with hm | ⟨c, hc, he⟩
          · exact hacc1 c' hm hcv
          · rw [he, updateExistingCar_id]
            exact hacc1 c hc (by rw [he, updateExistingCar_vao] at hcv; exact hcv)
        · next hany =>
          rcases List.mem_append.mp hc' with hm | hm
          · exact hacc1 c' hm hcv
          · simp only [List.mem_singleton] at hm
            rw [hm]
            intro hmem
            apply hany
            have : d.id ∈ acc.map (fun c => c.id) :=
              hacc2 d.id hmem (List.mem_map_of_mem _ hd)
            obtain ⟨c, hc, he⟩ := List.mem_map.mp this
            simp only [List.any_eq_true, decide_eq_true_eq]
            exact ⟨c, hc, he⟩
      · intro i hics his
        exact id_mem_applyCarEntry (hacc2 i hics his)
  exact main.1

/-- When every tracked car is still reported and every reported id is
already tracked (the situation after a snapshot has been applied once),
the getCars reconciliation leaves the tracked id list unchanged. -/
theorem getCarsBody_map_id_of_all {s : List CarData} {cs : List Car}
    (h1 : ∀ c ∈ cs, c.id ∈ s.map (fun d => d.id))
    (h2 : ∀ d ∈ s, d.id ∈ cs.map (fun c => c.id)) :
    (getCarsBody s cs).map (fun c => c.id) = cs.map (fun c => c.id) := by
  have hkept :
      cs.filter (fun c => c.id ∈ s.map (fun d => d.id)) = cs := by
    apply List.filter_eq_self.mpr
    intro c hc
    simp only [decide_eq_true_eq]
    exact h1 c hc
  show (s.foldl applyCarEntry _).map (fun c => c.id) = cs.map (fun c => c.id)
  rw [hkept]
  refine List.foldlRecOn
    (motive := fun acc => acc.map (fun c => c.id) = cs.map (fun c => c.id))
    s applyCarEntry _ rfl ?_
  intro acc hacc d hd
  rw [applyCarEntry_map_id_of_mem, hacc]
  rw [hacc]
  exact h2 d hd

/-! ### Duplicate-id handling of getCars (later occurrence wins) -/

/-- The car fields that one snapshot entry determines: position, direction
and the future-position hint. -/
def carMatches (c : Car) (d : CarData) : Prop :=
  c.position = ⟨d.x, d.y, d.z⟩ ∧ c.direction = d.direction ∧
    c.futurePos = ⟨d.futureX, d.y, d.futureZ⟩

theorem updFirstCar_filter_ne {cs : List Car} {d : CarData} {k : EntId}
    (h : ¬ d.id = k) :
    (updFirstCar cs d).filter (fun c => c.id = k) =
      cs.filter (fun c => c.id = k) := by
  induction cs with
  | nil => rfl
  | cons c rest ih =>
    rw [updFirstCar]
    split
    · next he =>
      rw [List.filter_cons, List.filter_cons]
      have h1 : ¬ (updateExistingCar c d).id = k := by
        rw [updateExistingCar_id, he]
        exact h
      have h2 : ¬ c.id = k := by
        rw [he]
        exact h
      simp [h1, h2]
    · rw [List.filter_cons, List.filter_cons, ih]

theorem applyCarEntry_filter_ne {cs : List Car} {d : CarData} {k : EntId}
    (h : ¬ d.id = k) :
    (applyCarEntry cs d).filter (fun c => c.id = k) =
      cs.filter (fun c => c.id = k) := by
  rw [applyCarEntry]
  split
  · exact updFirstCar_filter_ne h
  · rw [List.filter_append]
    have : [mkNewCar d].filter (fun c => c.id = k) = [] := by
      simp [mkNewCar, h]
    rw [this, List.append_nil]

theorem updFirstCar_filter_self {cs : List Car} {d : CarData}
    (hnodup : (cs.map (fun c => c.id)).Nodup)
    (hany : ∃ c ∈ cs, c.id = d.id) :
    ∃ c₀ ∈ cs, (updFirstCar cs d).filter (fun c => c.id = d.id) =
      [updateExistingCar c₀ d] := by
  induction cs with
  | nil => simp at hany
  | cons c rest ih =>
    rw [updFirstCar]
    split
    · next he =>
      refine ⟨c, List.mem_cons_self .., ?_⟩
      rw [List.filter_cons]
      have h1 : (updateExistingCar c d).id = d.id := by
        rw [updateExistingCar_id, he]
      have hrest : rest.filter (fun c => c.id = d.id) = [] := by
        apply List.filter_eq_nil_iff.mpr
        intro x hx
        simp only [decide_eq_true_eq]
        intro hxe
        have : c.id ∈ rest.map (fun c => c.id) :=
          List.mem_map.mpr ⟨x, hx, by rw [hxe, he]⟩
        exact (List.nodup_cons.mp (by simpa using hnodup)).1 this
      simp [h1, hrest]
    · next he =>
      rw [List.filter_cons]
      have h2 : ¬ c.id = d.id := he
      rcases hany with ⟨c', hc', he'⟩
      rcases List.mem_cons.mp hc' with h | h
      · exact absurd (h ▸ he') h2
      · obtain ⟨c₀, hc₀, heq⟩ :=
          ih (List.nodup_cons.mp (by simpa using hnodup)).2 ⟨c', h, he'⟩
        exact ⟨c₀, List.mem_cons_of_mem _ hc₀, by simp [h2, heq]⟩

theorem applyCarEntry_filter_self {cs : List Car} {d : CarData} {k : EntId}
    (hnodup : (cs.map (fun c => c.id)).Nodup) (hdk : d.id = k) :
    ∃ x, (applyCarEntry cs d).filter (fun c => c.id = k) = [x] ∧ carMatches x d := by
  subst hdk
  rw [applyCarEntry]
  split
  · next hany =>
    simp only [List.any_eq_true, decide_eq_true_eq] at hany
    obtain ⟨c₀, _, heq⟩ := updFirstCar_filter_self hnodup hany
    exact ⟨updateExistingCar c₀ d, heq, rfl, rfl, rfl⟩
  · next hany =>
    rw [List.filter_append]
    have h0 : cs.filter (fun c => c.id = d.id) = [] := by
      apply List.filter_eq_nil_iff.mpr
      intro x hx
      simp only [decide_eq_true_eq]
      intro hxe
      apply hany
      simp only [List.any_eq_true, decide_eq_true_eq]
      exact ⟨x, hx, hxe⟩
    rw [h0, List.nil_append]
    exact ⟨mkNewCar d, by simp [mkNewCar], rfl, rfl, rfl⟩

theorem getLast?_cons_of_ne_nil {α : Type _} (a : α) {l : List α}
    (h : l ≠ []) : (a :: l).getLast? = l.getLast? := by
  cases l with
  | nil => exact absurd rfl h
  | cons b t => exact List.getLast?_cons_cons ..

theorem foldl_filter_frame {s : List CarData} {k : EntId} :
    ∀ {acc : List Car}, k ∉ s.map (fun d => d.id) →
      (s.foldl applyCarEntry acc).filter (fun c => c.id = k) =
        acc.filter (fun c => c.id = k) := by
  induction s with
  | nil => intro acc _; rfl
  | cons d rest ih =>
    intro acc h
    simp only [List.map_cons, List.mem_cons] at h
    push_neg at h
    simp only [List.foldl_cons]
    rw [ih (by simpa using h.2), applyCarEntry_filter_ne (fun he => h.1 he.symm)]

theorem foldl_last_wins :
    ∀ (s : List CarData) (acc : List Car) (k : EntId),
      (acc.map (fun c => c.id)).Nodup → k ∈ s.map (fun d => d.id) →
      ∃ d x, (s.filter (fun e => e.id = k)).getLast? = some d ∧
        (s.foldl applyCarEntry acc).filter (fun c => c.id = k) = [x] ∧
        carMatches x d := by
  intro s
  induction s with
  | nil => intro acc k _ hk; simp at hk
  | cons d0 rest ih =>
    intro acc k hnodup hk
    by_cases hkrest : k ∈ rest.map (fun d => d.id)
    · obtain ⟨d, x, hlast, hfilter, hmatch⟩ :=
        ih (applyCarEntry acc d0) k (applyCarEntry_nodup hnodup) hkrest
      refine ⟨d, x, ?_, hfilter, hmatch⟩
      have hne : rest.filter (fun e => e.id = k) ≠ [] := by
        obtain ⟨d', hd', he'⟩ := List.mem_map.mp hkrest
        intro hnil
        have : d' ∈ rest.filter (fun e => e.id = k) :=
          List.mem_filter.mpr ⟨hd', by simp [he']⟩
        rw [hnil] at this
        cases this
      rw [List.filter_cons]
      split
      · rw [getLast?_cons_of_ne_nil _ hne]
        exact hlast
      · exact hlast
    · have hd0k : d0.id = k := by
        simp only [List.map_cons, List.mem_cons] at hk
        rcases hk with h | h
        · exact h.symm
        · exact absurd h hkrest
      obtain ⟨x, hfe, hmatch⟩ := applyCarEntry_filter_self hnodup hd0k
      refine ⟨d0, x, ?_, ?_, hmatch⟩
      · have hrest : rest.filter (fun e => e.id = k) = [] := by
          apply List.filter_eq_nil_iff.mpr
          intro e he
          simp only [decide_eq_true_eq]
          intro hek
          exact hkrest (List.mem_map.mpr ⟨e, he, hek⟩)
        rw [List.filter_cons]
        simp [hd0k, hrest]
      · simp only [List.foldl_cons]
        rw [foldl_filter_frame hkrest, hfe]

/-! ### Lemmas about the updateCars scene reconciliation -/

/-- The ids removed from the scene by the retirement phase of updateCars:
ids of truthy car-model scene objects that are not currently tracked. -/
def removedIds (models : List Nat) (ids : List EntId) (scene : List SceneObj) :
    List EntId :=
  ((scene.filter (fun o => ¬ o.id = 0 ∧ o.vao ∈ models)).filter
    (fun x => x.id ∉ ids)).map (fun x => x.id)

theorem remove_foldl_eq (ids : List EntId) :
    ∀ (L sc : List SceneObj),
      L.foldl (fun sc o => if o.id ∈ ids then sc else removeObject sc o.id) sc
      = sc.filter
          (fun o => o.id ∉ (L.filter (fun x => x.id ∉ ids)).map (fun x => x.id)) := by
  intro L
  induction L with
  | nil => intro sc; simp
  | cons a L' ih =>
    intro sc
    simp only [List.foldl_cons]
    by_cases ha : a.id ∈ ids
    · rw [if_pos ha, ih]
      have he : (a :: L').filter (fun x => x.id ∉ ids) =
          L'.filter (fun x => x.id ∉ ids) := by
        rw [List.filter_cons]
        simp [ha]
      rw [he]
    · rw [if_neg ha, removeObject, ih, List.filter_filter]
      have he : (a :: L').filter (fun x => x.id ∉ ids) =
          a :: L'.filter (fun x => x.id ∉ ids) := by
        rw [List.filter_cons]
        simp [ha]
      rw [he]
      apply List.filter_congr
      intro o _
      by_cases h1 : o.id = a.id <;>
        by_cases h2 : o.id ∈ (L'.filter (fun x => x.id ∉ ids)).map (fun x => x.id) <;>
        simp [h1, h2]

theorem updateCarsRemove_eq (models : List Nat) (ids : List EntId)
    (scene : List SceneObj) :
    updateCarsRemove models ids scene =
      scene.filter (fun o => o.id ∉ removedIds models ids scene) :=
  remove_foldl_eq ids _ scene

theorem removedIds_mem {models : List Nat} {ids : List EntId}
    {scene : List SceneObj} {i : EntId} :
    i ∈ removedIds models ids scene ↔
      ∃ x ∈ scene, x.id = i ∧ ¬ x.id = 0 ∧ x.vao ∈ models ∧ x.id ∉ ids := by
  simp only [removedIds, List.mem_map, List.mem_filter, decide_eq_true_eq]
  constructor
  · rintro ⟨x, ⟨⟨hx, h0, hv⟩, hni⟩, he⟩
    exact ⟨x, hx, he, h0, hv, by simpa using hni⟩
  · rintro ⟨x, hx, he, h0, hv, hni⟩
    exact ⟨x, ⟨⟨hx, h0, hv⟩, by simpa using hni⟩, he⟩

theorem updateCarsRemove_mem {models : List Nat} {ids : List EntId}
    {scene : List SceneObj} {o : SceneObj} :
    o ∈ updateCarsRemove models ids scene ↔
      o ∈ scene ∧ o.id ∉ removedIds models ids scene := by
  rw [updateCarsRemove_eq]
  simp [List.mem_filter]

theorem updateCarsRemove_sublist (models : List Nat) (ids : List EntId)
    (scene : List SceneObj) :
    (updateCarsRemove models ids scene).Sublist scene := by
  rw [updateCarsRemove_eq]
  exact List.filter_sublist scene

/-- A scene object with a truthy id and a car-model vao survives the
retirement phase exactly when its id is currently tracked. -/
theorem truthyCar_kept {models : List Nat} {ids : List EntId}
    {scene : List SceneObj} {o : SceneObj} (ho : o ∈ scene)
    (h0 : ¬ o.id = 0) (hv : o.vao ∈ models) :
    o ∈ updateCarsRemove models ids scene ↔ o.id ∈ ids := by
  rw [updateCarsRemove_mem]
  constructor
  · rintro ⟨_, hni⟩
    by_contra hmem
    exact hni (removedIds_mem.mpr ⟨o, ho, rfl, h0, hv, hmem⟩)
  · intro hmem
    refine ⟨ho, fun hri => ?_⟩
    obtain ⟨x, _, he, _, _, hni⟩ := removedIds_mem.mp hri
    exact hni (he ▸ hmem)

/-- Under a duplicate-free scene, an object that is not a truthy car-model
object survives the retirement phase. -/
theorem deco_kept {models : List Nat} {ids : List EntId}
    {scene : List SceneObj}
    (hnodup : (scene.map (fun o => o.id)).Nodup) {o : SceneObj}
    (ho : o ∈ scene) (hdeco : ¬ (¬ o.id = 0 ∧ o.vao ∈ models)) :
    o ∈ updateCarsRemove models ids scene := by
  rw [updateCarsRemove_mem]
  refine ⟨ho, fun hri => ?_⟩
  obtain ⟨x, hx, he, h0, hv, _⟩ := removedIds_mem.mp hri
  have hxo : x = o := List.inj_on_of_nodup_map hnodup hx ho he
  exact hdeco (hxo ▸ ⟨h0, hv⟩)

/-- The retirement phase leaves the non-car part of the scene unchanged
(as a list), provided the scene has no duplicate ids. -/
theorem updateCarsRemove_deco_eq {models : List Nat} {ids : List EntId}
    {scene : List SceneObj}
    (hnodup : (scene.map (fun o => o.id)).Nodup) :
    (updateCarsRemove models ids scene).filter
        (fun o => ¬ (¬ o.id = 0 ∧ o.vao ∈ models)) =
      scene.filter (fun o => ¬ (¬ o.id = 0 ∧ o.vao ∈ models)) := by
  rw [updateCarsRemove_eq, List.filter_filter]
  apply List.filter_congr
  intro o ho
  by_cases hdeco : ¬ (¬ o.id = 0 ∧ o.vao ∈ models)
  · have hkeep : o.id ∉ removedIds models ids scene := by
      intro hri
      obtain ⟨x, hx, he, h0, hv, _⟩ := removedIds_mem.mp hri
      have hxo : x = o := List.inj_on_of_nodup_map hnodup hx ho he
      exact hdeco (hxo ▸ ⟨h0, hv⟩)
    simp [hkeep, hdeco]
  · simp [hdeco]

/-! ### Lemmas about the per-car assignment loop -/

/-- updateCarRotation only ever rewrites the targetRotY field. -/
theorem updateCarRotation_eq (f : ℚ → ℚ → ℚ) (c : Car) :
    ∃ t, updateCarRotation f c = { c with targetRotY := t } := by
  obtain ⟨i, pos, old, dir, fut, col, vao, sca, cro, tro, ren, rot⟩ := c
  rcases old with _ | old
  · rcases dir with _ | dir
    · exact ⟨tro, rfl⟩
    · rcases hr : DIRECTION_ROTATIONS dir with _ | a
      · exact ⟨tro, by simp [updateCarRotation, hr]⟩
      · exact ⟨some a, by simp [updateCarRotation, hr]⟩
  · dsimp only [updateCarRotation]
    split
    · exact ⟨_, rfl⟩
    · exact ⟨tro, rfl⟩

theorem updateCarRotation_id (f : ℚ → ℚ → ℚ) (c : Car) :
    (updateCarRotation f c).id = c.id := by
  obtain ⟨t, ht⟩ := updateCarRotation_eq f c
  rw [ht]

theorem updateCarRotation_vao (f : ℚ → ℚ → ℚ) (c : Car) :
    (updateCarRotation f c).vao = c.vao := by
  obtain ⟨t, ht⟩ := updateCarRotation_eq f c
  rw [ht]

theorem addObject_superset {sc : List SceneObj} {x : SceneObj} :
    ∀ o ∈ sc, o ∈ addObject sc x := by
  intro o ho
  rw [addObject]
  split
  · exact ho
  · exact List.mem_append_left _ ho

theorem addObject_mem {sc : List SceneObj} {x : SceneObj} :
    ∀ o ∈ addObject sc x, o ∈ sc ∨ o = x := by
  intro o ho
  rw [addObject] at ho
  split at ho
  · exact Or.inl ho
  · rcases List.mem_append.mp ho with h | h
    · exact Or.inl h
    · exact Or.inr (List.mem_singleton.mp h)

theorem addObject_append {sc : List SceneObj} {x : SceneObj}
    (h : x.id ∉ sc.map (fun o => o.id)) : addObject sc x = sc ++ [x] := by
  rw [addObject, if_neg]
  simp only [List.any_eq_true, decide_eq_true_eq]
  rintro ⟨o, ho, he⟩
  exact h (List.mem_map.mpr ⟨o, ho, he⟩)

theorem getD_mem {l : List Nat} (n : ℕ) (h : l ≠ []) :
    l.getD (n % l.length) 0 ∈ l := by
  have hlen : 0 < l.length := List.length_pos.mpr h
  have hlt : n % l.length < l.length := Nat.mod_lt _ hlen
  rw [List.getD_eq_getElem l 0 hlt]
  exact List.getElem_mem hlt

theorem assignLoop_map_id (models : List Nat) (pick : ℕ → ℕ)
    (atan2f : ℚ → ℚ → ℚ) :
    ∀ (cars : List Car) (n : ℕ) (sc : List SceneObj),
      (assignLoop models pick atan2f cars n sc).1.map (fun c => c.id) =
        cars.map (fun c => c.id) := by
  intro cars
  induction cars with
  | nil => intro n sc; rfl
  | cons car rest ih =>
    intro n sc
    rw [assignLoop]
    split
    · simp only [List.map_cons, updateCarRotation_id, ih]
    · simp only [List.map_cons, updateCarRotation_id, ih]

theorem assignLoop_vao (models : List Nat) (pick : ℕ → ℕ)
    (atan2f : ℚ → ℚ → ℚ) (hm : models ≠ []) :
    ∀ (cars : List Car) (n : ℕ) (sc : List SceneObj),
      (∀ c ∈ cars, c.vao = none ∨ ∃ v ∈ models, c.vao = some v) →
      ∀ c' ∈ (assignLoop models pick atan2f cars n sc).1,
        ∃ v ∈ models, c'.vao = some v := by
  intro cars
  induction cars with
  | nil => intro n sc _ c' hc'; cases hc'
  | cons car rest ih =>
    intro n sc hdich c' hc'
    rw [assignLoop] at hc'
    split at hc'
    · rcases List.mem_cons.mp hc' with h | h
      · rw [h, updateCarRotation_vao]
        exact ⟨models.getD (pick n % models.length) 0, getD_mem _ hm, rfl⟩
      · exact ih _ _ (fun c hc => hdich c (List.mem_cons_of_mem _ hc)) c' h
    · next hcond =>
      rcases List.mem_cons.mp hc' with h | h
      · rw [h, updateCarRotation_vao]
        rcases hdich car (List.mem_cons_self ..) with hn | hv
        · exact absurd ⟨hn, hm⟩ hcond
        · exact hv
      · exact ih _ _ (fun c hc => hdich c (List.mem_cons_of_mem _ hc)) c' h

theorem assignLoop_scene_superset (models : List Nat) (pick : ℕ → ℕ)
    (atan2f : ℚ → ℚ → ℚ) :
    ∀ (cars : List Car) (n : ℕ) (sc : List SceneObj),
      ∀ o ∈ sc, o ∈ (assignLoop models pick atan2f cars n sc).2 := by
  intro cars
  induction cars with
  | nil => intro n sc o ho; exact ho
  | cons car rest ih =>
    intro n sc o ho
    rw [assignLoop]
    split
    · exact ih _ _ o (addObject_superset o ho)
    · exact ih _ _ o ho

theorem assignLoop_scene_sub (models : List Nat) (pick : ℕ → ℕ)
    (atan2f : ℚ → ℚ → ℚ) :
    ∀ (cars : List Car) (n : ℕ) (sc : List SceneObj),
      ∀ o ∈ (assignLoop models pick atan2f cars n sc).2,
        o ∈ sc ∨ (o.vao ∈ models ∧ ∃ c ∈ cars, c.id = o.id ∧ c.vao = none) := by
  intro cars
  induction cars with
  | nil => intro n sc o ho; exact Or.inl ho
  | cons car rest ih =>
    intro n sc o ho
    rw [assignLoop] at ho
    split at ho
    · next hcond =>
      rcases ih _ _ o ho with h | ⟨hv, c, hc, he, hn⟩
      · rcases addObject_mem o h with h' | h'
        · exact Or.inl h'
        · refine Or.inr ⟨?_, car, List.mem_cons_self .., ?_, hcond.1⟩
          · rw [h']
            exact getD_mem _ hcond.2
          · rw [h']
      · exact Or.inr ⟨hv, c, List.mem_cons_of_mem _ hc, he, hn⟩
    · rcases ih _ _ o ho with h | ⟨hv, c, hc, he, hn⟩
      · exact Or.inl h
      · exact Or.inr ⟨hv, c, List.mem_cons_of_mem _ hc, he, hn⟩

theorem assignLoop_scene_decomp (models : List Nat) (pick : ℕ → ℕ)
    (atan2f : ℚ → ℚ → ℚ) (hm : models ≠ []) :
    ∀ (cars : List Car) (n : ℕ) (sc : List SceneObj),
      (cars.map (fun c => c.id)).Nodup →
      (∀ c ∈ cars, c.vao = none → c.id ∉ sc.map (fun o => o.id)) →
      ∃ objs, (assignLoop models pick atan2f cars n sc).2 = sc ++ objs ∧
        objs.map (fun o => o.id) =
          (cars.filter (fun c => c.vao = none)).map (fun c => c.id) ∧
        (∀ o ∈ objs, o.vao ∈ models ∧ o.id ∈ cars.map (fun c => c.id)) := by
  intro cars
  induction cars with
  | nil =>
    intro n sc _ _
    exact ⟨[], by simp [assignLoop], rfl, by simp⟩
  | cons car rest ih =>
    intro n sc hnodup hfresh
    have hnodup' : (∀ x ∈ rest, ¬ x.id = car.id) ∧
        (rest.map (fun c => c.id)).Nodup := by simpa using hnodup
    rw [assignLoop]
    split
    · next hcond =>
      dsimp only
      have hid : car.id ∉ sc.map (fun o => o.id) :=
        hfresh car (List.mem_cons_self ..) hcond.1
      rw [addObject_append hid]
      have hfresh' : ∀ c ∈ rest, c.vao = none →
          c.id ∉ (sc ++ [(⟨car.id, models.getD (pick n % models.length) 0⟩ : SceneObj)]).map
            (fun o => o.id) := by
        intro c hc hcv
        rw [List.map_append]
        intro hmem
        rcases List.mem_append.mp hmem with h | h
        · exact hfresh c (List.mem_cons_of_mem _ hc) hcv h
        · simp only [List.map_cons, List.map_nil, List.mem_singleton] at h
          exact hnodup'.1 c hc h
      obtain ⟨objs, heq, hids, hall⟩ := ih (n + 1) _ hnodup'.2 hfresh'
      refine ⟨⟨car.id, models.getD (pick n % models.length) 0⟩ :: objs, ?_, ?_, ?_⟩
      · rw [heq, List.append_assoc]
        rfl
      · rw [List.filter_cons]
        simp only [hcond.1, decide_eq_true_eq, if_pos rfl]
        simp only [List.map_cons, hids]
        simp [hcond.1]
      · intro o ho
        rcases List.mem_cons.mp ho with h | h
        · rw [h]
          exact ⟨getD_mem _ hcond.2, by simp⟩
        · obtain ⟨hv, hmem⟩ := hall o h
          exact ⟨hv, List.mem_cons_of_mem _ hmem⟩
    · next hcond =>
      have hcv : ¬ car.vao = none := fun h => hcond ⟨h, hm⟩
      have hfresh' : ∀ c ∈ rest, c.vao = none → c.id ∉ sc.map (fun o => o.id) :=
        fun c hc hcv => hfresh c (List.mem_cons_of_mem _ hc) hcv
      obtain ⟨objs, heq, hids, hall⟩ := ih n sc hnodup'.2 hfresh'
      refine ⟨objs, heq, ?_, ?_⟩
      · rw [List.filter_cons]
        simp [hcv, hids]
      · intro o ho
        obtain ⟨hv, hmem⟩ := hall o ho
        exact ⟨hv, List.mem_cons_of_mem _ hmem⟩

theorem assignLoop_no_assign (models : List Nat) (pick : ℕ → ℕ)
    (atan2f : ℚ → ℚ → ℚ) :
    ∀ (cars : List Car) (n : ℕ) (sc : List SceneObj),
      (∀ c ∈ cars, ¬ (c.vao = none ∧ models ≠ [])) →
      (assignLoop models pick atan2f cars n sc).2 = sc := by
  intro cars
  induction cars with
  | nil => intro n sc _; rfl
  | cons car rest ih =>
    intro n sc h
    rw [assignLoop]
    split
    · next hcond => exact absurd hcond (h car (List.mem_cons_self ..))
    · exact ih _ _ (fun c hc => h c (List.mem_cons_of_mem _ hc))

/-! ### The reconciliation invariant -/

/-- The well-formedness invariant connecting the cars array and the scene
graph: tracked ids are duplicate-free, truthy (nonzero) and carry a
car-model mesh handle; the cars array and the truthy car-model scene
objects track exactly the same ids; and the scene is duplicate-free. -/
def carInv (models : List Nat) (w : World) : Prop :=
  (w.cars.map (fun c => c.id)).Nodup ∧
  (∀ c ∈ w.cars, ¬ c.id = 0) ∧
  (∀ c ∈ w.cars, ∃ v ∈ models, c.vao = some v) ∧
  (∀ c ∈ w.cars, ∃ o ∈ w.scene, o.id = c.id ∧ o.vao ∈ models) ∧
  (∀ o ∈ w.scene, ¬ o.id = 0 → o.vao ∈ models → ∃ c ∈ w.cars, c.id = o.id) ∧
  (w.scene.map (fun o => o.id)).Nodup

/-- Specification of one reconciliation step getCars-then-updateCars, on a
well-formed state, for a snapshot of truthy ids that do not collide with
the decorative (non-car) scene objects. -/
theorem carStep_spec (models : List Nat) (pick : ℕ → ℕ) (atan2f : ℚ → ℚ → ℚ)
    (s : List CarData) (cars0 : List Car) (scene0 : List SceneObj)
    (hm : models ≠ [])
    (hnodup : (cars0.map (fun c => c.id)).Nodup)
    (_hnz : ∀ c ∈ cars0, ¬ c.id = 0)
    (hvao : ∀ c ∈ cars0, ∃ v ∈ models, c.vao = some v)
    (hcs : ∀ c ∈ cars0, ∃ o ∈ scene0, o.id = c.id ∧ o.vao ∈ models)
    (hsc : ∀ o ∈ scene0, ¬ o.id = 0 → o.vao ∈ models → ∃ c ∈ cars0, c.id = o.id)
    (hscn : (scene0.map (fun o => o.id)).Nodup)
    (hs0 : ∀ d ∈ s, ¬ d.id = 0)
    (hsd : ∀ d ∈ s, ∀ o ∈ scene0,
      ¬ (¬ o.id = 0 ∧ o.vao ∈ models) → ¬ d.id = o.id) :
    ((updateCars models pick atan2f (getCarsBody s cars0) scene0).1.map
        (fun c => c.id)).Nodup ∧
    (∀ c ∈ (updateCars models pick atan2f (getCarsBody s cars0) scene0).1,
      ¬ c.id = 0) ∧
    (∀ c ∈ (updateCars models pick atan2f (getCarsBody s cars0) scene0).1,
      ∃ v ∈ models, c.vao = some v) ∧
    (∀ c ∈ (updateCars models pick atan2f (getCarsBody s cars0) scene0).1,
      ∃ o ∈ (updateCars models pick atan2f (getCarsBody s cars0) scene0).2,
        o.id = c.id ∧ o.vao ∈ models) ∧
    (∀ o ∈ (updateCars models pick atan2f (getCarsBody s cars0) scene0).2,
      ¬ o.id = 0 → o.vao ∈ models →
      ∃ c ∈ (updateCars models pick atan2f (getCarsBody s cars0) scene0).1,
        c.id = o.id) ∧
    (((updateCars models pick atan2f (getCarsBody s cars0) scene0).2.map
        (fun o => o.id)).Nodup) ∧
    (∀ i : EntId,
      (∃ c ∈ (updateCars models pick atan2f (getCarsBody s cars0) scene0).1,
        c.id = i) ↔ i ∈ s.map (fun d => d.id)) ∧
    (∀ d ∈ s, ∃ o ∈ (updateCars models pick atan2f (getCarsBody s cars0) scene0).2,
      o.id = d.id ∧ o.vao ∈ models) ∧
    ((updateCars models pick atan2f (getCarsBody s cars0) scene0).2.filter
        (fun o => ¬ (¬ o.id = 0 ∧ o.vao ∈ models)) =
      scene0.filter (fun o => ¬ (¬ o.id = 0 ∧ o.vao ∈ models))) := by
  -- facts about the reconciled cars array
  have hn1 : ((getCarsBody s cars0).map (fun c => c.id)).Nodup :=
    getCarsBody_nodup hnodup
  have hsub1 : ∀ c ∈ getCarsBody s cars0, c.id ∈ s.map (fun d => d.id) :=
    getCarsBody_id_sub
  have hpres1 : ∀ d ∈ s, d.id ∈ (getCarsBody s cars0).map (fun c => c.id) :=
    getCarsBody_id_present
  have hnz1 : ∀ c ∈ getCarsBody s cars0, ¬ c.id = 0 := by
    intro c hc
    obtain ⟨d, hd, he⟩ := List.mem_map.mp (hsub1 c hc)
    exact he ▸ hs0 d hd
  have hdich1 : ∀ c ∈ getCarsBody s cars0,
      c.vao = none ∨ ∃ v ∈ models, c.vao = some v :=
    getCarsBody_vao_pres (fun vo => vo = none ∨ ∃ v ∈ models, vo = some v)
      (Or.inl rfl) (fun c hc => Or.inr (hvao c hc))
  have hvne : ∀ c ∈ cars0, c.vao ≠ none := by
    intro c hc h
    obtain ⟨v, _, he⟩ := hvao c hc
    rw [he] at h
    cases h
  have hvnone_fresh : ∀ c ∈ getCarsBody s cars0, c.vao = none →
      c.id ∉ cars0.map (fun c => c.id) :=
    getCarsBody_vaoNone_fresh hvne
  have hvsome_old : ∀ c ∈ getCarsBody s cars0, c.vao ≠ none →
      c.id ∈ cars0.map (fun c => c.id) :=
    getCarsBody_vaoSome_old
  -- the retirement phase
  have hscn1 : ((updateCarsRemove models
      ((getCarsBody s cars0).map (fun c => c.id)) scene0).map
        (fun o => o.id)).Nodup :=
    ((updateCarsRemove_sublist models _ scene0).map (fun o => o.id)).nodup hscn
  have hfresh : ∀ c ∈ getCarsBody s cars0, c.vao = none →
      c.id ∉ (updateCarsRemove models
        ((getCarsBody s cars0).map (fun c => c.id)) scene0).map
          (fun o => o.id) := by
    intro c hc hcv hmem
    obtain ⟨o, ho1, ho2⟩ := List.mem_map.mp hmem
    have hosc : o ∈ scene0 :=
      (updateCarsRemove_sublist models _ scene0).subset ho1
    by_cases hdeco : ¬ o.id = 0 ∧ o.vao ∈ models
    · obtain ⟨c0, hc0, he0⟩ := hsc o hosc hdeco.1 hdeco.2
      apply hvnone_fresh c hc hcv
      exact List.mem_map.mpr ⟨c0, hc0, by rw [he0, ho2]⟩
    · obtain ⟨d, hd, he⟩ := List.mem_map.mp (hsub1 c hc)
      exact hsd d hd o hosc hdeco (by rw [he, ho2])
  -- the assignment phase
  obtain ⟨objs, hdec, hids, hall⟩ :=
    assignLoop_scene_decomp models pick atan2f hm (getCarsBody s cars0) 0
      (updateCarsRemove models ((getCarsBody s cars0).map (fun c => c.id)) scene0)
      hn1 hfresh
  have hidp : (updateCars models pick atan2f (getCarsBody s cars0) scene0).1.map
      (fun c => c.id) = (getCarsBody s cars0).map (fun c => c.id) :=
    assignLoop_map_id models pick atan2f _ 0 _
  have hvaop : ∀ c ∈ (updateCars models pick atan2f (getCarsBody s cars0) scene0).1,
      ∃ v ∈ models, c.vao = some v :=
    assignLoop_vao models pick atan2f hm _ 0 _ hdich1
  have hscene2 : (updateCars models pick atan2f (getCarsBody s cars0) scene0).2 =
      updateCarsRemove models ((getCarsBody s cars0).map (fun c => c.id)) scene0
        ++ objs := hdec
  -- the tracked id list is preserved by the assignment loop
  have hmemid : ∀ i : EntId,
      (∃ c ∈ (updateCars models pick atan2f (getCarsBody s cars0) scene0).1,
        c.id = i) ↔ i ∈ (getCarsBody s cars0).map (fun c => c.id) := by
    intro i
    constructor
    · rintro ⟨c, hc, he⟩
      exact hidp ▸ List.mem_map.mpr ⟨c, hc, he⟩
    · intro hi
      have : i ∈ (updateCars models pick atan2f (getCarsBody s cars0) scene0).1.map
          (fun c => c.id) := hidp ▸ hi
      obtain ⟨c, hc, he⟩ := List.mem_map.mp this
      exact ⟨c, hc, he⟩
  -- objs ids are fresh relative to the retired scene
  have hobjs_fresh : ∀ i ∈ objs.map (fun o => o.id),
      i ∉ (updateCarsRemove models ((getCarsBody s cars0).map (fun c => c.id))
        scene0).map (fun o => o.id) := by
    intro i hi
    rw [hids] at hi
    obtain ⟨c, hc, he⟩ := List.mem_map.mp hi
    have hcf := List.mem_filter.mp hc
    have hcv : c.vao = none := by simpa using hcf.2
    exact he ▸ hfresh c hcf.1 hcv
  have hobjs_nz : ∀ o ∈ objs, ¬ o.id = 0 := by
    intro o ho
    obtain ⟨_, hmem⟩ := hall o ho
    obtain ⟨c, hc, he⟩ := List.mem_map.mp hmem
    exact he ▸ hnz1 c hc
  refine ⟨hidp ▸ hn1, ?_, hvaop, ?_, ?_, ?_, ?_, ?_, ?_⟩
  · -- nonzero ids
    intro c hc
    have : c.id ∈ (getCarsBody s cars0).map (fun c => c.id) :=
      hidp ▸ List.mem_map.mpr ⟨c, hc, rfl⟩
    obtain ⟨c1, hc1, he1⟩ := List.mem_map.mp this
    exact he1 ▸ hnz1 c1 hc1
  · -- every tracked car has a truthy car-model scene object
    intro c hc
    have : c.id ∈ (getCarsBody s cars0).map (fun c => c.id) :=
      hidp ▸ List.mem_map.mpr ⟨c, hc, rfl⟩
    obtain ⟨c1, hc1, he1⟩ := List.mem_map.mp this
    rcases hdich1 c1 hc1 with hv | hv
    · -- new car: its scene object was just appended
      have : c1.id ∈ objs.map (fun o => o.id) := by
        rw [hids]
        exact List.mem_map.mpr ⟨c1, List.mem_filter.mpr ⟨hc1, by simpa using hv⟩, rfl⟩
      obtain ⟨o, ho, he⟩ := List.mem_map.mp this
      refine ⟨o, ?_, by rw [he, he1], (hall o ho).1⟩
      rw [hscene2]
      exact List.mem_append_right _ ho
    · -- tracked car: its old scene object survived the retirement phase
      have hvne1 : c1.vao ≠ none := by
        obtain ⟨v, _, he⟩ := hv
        rw [he]
        intro h
        cases h
      obtain ⟨c0, hc0, he0⟩ := List.mem_map.mp (hvsome_old c1 hc1 hvne1)
      obtain ⟨o, ho, heo, hov⟩ := hcs c0 hc0
      have ho0 : ¬ o.id = 0 := by
        rw [heo, he0]
        exact hnz1 c1 hc1
      have hkeep : o ∈ updateCarsRemove models
          ((getCarsBody s cars0).map (fun c => c.id)) scene0 := by
        rw [truthyCar_kept ho ho0 hov, heo, he0]
        exact List.mem_map.mpr ⟨c1, hc1, rfl⟩
      refine ⟨o, ?_, by rw [heo, he0, he1], hov⟩
      rw [hscene2]
      exact List.mem_append_left _ hkeep
  · -- every truthy car-model scene object corresponds to a tracked car
    intro o ho ho0 hov
    rw [hscene2] at ho
    rcases List.mem_append.mp ho with h | h
    · have hosc : o ∈ scene0 := (updateCarsRemove_sublist models _ scene0).subset h
      have := (truthyCar_kept hosc ho0 hov).mp h
      exact (hmemid o.id).mpr this
    · obtain ⟨_, hmem⟩ := hall o h
      exact (hmemid o.id).mpr hmem
  · -- the scene stays duplicate-free
    rw [hscene2, List.map_append]
    rw [List.nodup_append]
    refine ⟨hscn1, ?_, ?_⟩
    · rw [hids]
      exact ((List.filter_sublist (getCarsBody s cars0)).map (fun c => c.id)).nodup hn1
    · intro i hi hi'
      exact hobjs_fresh i hi' hi
  · -- tracked ids are exactly the snapshot ids
    intro i
    rw [hmemid i]
    constructor
    · intro hi
      obtain ⟨c1, hc1, he1⟩ := List.mem_map.mp hi
      exact he1 ▸ hsub1 c1 hc1
    · intro hi
      obtain ⟨d, hd, he⟩ := List.mem_map.mp hi
      exact he ▸ hpres1 d hd
  · -- every snapshot id has a truthy scene object
    intro d hd
    have : ∃ c ∈ (updateCars models pick atan2f (getCarsBody s cars0) scene0).1,
        c.id = d.id := (hmemid d.id).mpr (hpres1 d hd)
    obtain ⟨c, hc, he⟩ := this
    -- reuse the carsScene conjunct proved above: redo the argument directly
    have : c.id ∈ (getCarsBody s cars0).map (fun c => c.id) :=
      hidp ▸ List.mem_map.mpr ⟨c, hc, rfl⟩
    obtain ⟨c1, hc1, he1⟩ := List.mem_map.mp this
    rcases hdich1 c1 hc1 with hv | hv
    · have : c1.id ∈ objs.map (fun o => o.id) := by
        rw [hids]
        exact List.mem_map.mpr ⟨c1, List.mem_filter.mpr ⟨hc1, by simpa using hv⟩, rfl⟩
      obtain ⟨o, ho, heo⟩ := List.mem_map.mp this
      refine ⟨o, ?_, by rw [heo, he1, he], (hall o ho).1⟩
      rw [hscene2]
      exact List.mem_append_right _ ho
    · have hvne1 : c1.vao ≠ none := by
        obtain ⟨v, _, hev⟩ := hv
        rw [hev]
        intro h
        cases h
      obtain ⟨c0, hc0, he0⟩ := List.mem_map.mp (hvsome_old c1 hc1 hvne1)
      obtain ⟨o, ho, heo, hov⟩ := hcs c0 hc0
      have ho0 : ¬ o.id = 0 := by
        rw [heo, he0]
        exact hnz1 c1 hc1
      have hkeep : o ∈ updateCarsRemove models
          ((getCarsBody s cars0).map (fun c => c.id)) scene0 := by
        rw [truthyCar_kept ho ho0 hov, heo, he0]
        exact List.mem_map.mpr ⟨c1, hc1, rfl⟩
      refine ⟨o, ?_, by rw [heo, he0, he1, he], hov⟩
      rw [hscene2]
      exact List.mem_append_left _ hkeep
  · -- the decorative scene is untouched
    rw [hscene2, List.filter_append]
    have hobjs : objs.filter (fun o => ¬ (¬ o.id = 0 ∧ o.vao ∈ models)) = [] := by
      apply List.filter_eq_nil_iff.mpr
      intro o ho
      simp only [decide_eq_true_eq]
      intro hdeco
      exact hdeco ⟨hobjs_nz o ho, (hall o ho).1⟩
    rw [hobjs, List.append_nil]
    exact updateCarsRemove_deco_eq hscn

/-- carStep_spec transported to one successful polling tick of the world
state (the traffic-light and sphere updates touch neither the cars array
nor the scene graph). -/
theorem tick_spec (models : List Nat) (pick : ℕ → ℕ) (atan2f : ℚ → ℚ → ℚ)
    (s : List CarData) (ls : List LightData) (w : World)
    (hm : models ≠ [])
    (hinv : carInv models w)
    (hs0 : ∀ d ∈ s, ¬ d.id = 0)
    (hsd : ∀ d ∈ s, ∀ o ∈ w.scene,
      ¬ (¬ o.id = 0 ∧ o.vao ∈ models) → ¬ d.id = o.id) :
    carInv models (tick models pick atan2f s ls w) ∧
    (∀ i : EntId, (∃ c ∈ (tick models pick atan2f s ls w).cars, c.id = i) ↔
        i ∈ s.map (fun d => d.id)) ∧
    (∀ d ∈ s, ∃ o ∈ (tick models pick atan2f s ls w).scene,
        o.id = d.id ∧ o.vao ∈ models) ∧
    ((tick models pick atan2f s ls w).scene.filter
        (fun o => ¬ (¬ o.id = 0 ∧ o.vao ∈ models)) =
      w.scene.filter (fun o => ¬ (¬ o.id = 0 ∧ o.vao ∈ models))) ∧
    (tick models pick atan2f s ls w).obstacles = w.obstacles ∧
    (tick models pick atan2f s ls w).roads = w.roads ∧
    (tick models pick atan2f s ls w).destinations = w.destinations := by
  obtain ⟨h1, h2, h3, h4, h5, h6, h7, h8, h9⟩ :=
    carStep_spec models pick atan2f s w.cars w.scene hm hinv.1 hinv.2.1
      hinv.2.2.1 hinv.2.2.2.1 hinv.2.2.2.2.1 hinv.2.2.2.2.2 hs0 hsd
  exact ⟨⟨h1, h2, h3, h4, h5, h6⟩, h7, h8, h9, rfl, rfl, rfl⟩

/-- A run of successful ticks preserves the invariant, the decorative
scene and the static collections, provided every snapshot has truthy ids
disjoint from the decorative scene ids. -/
theorem tickRun_spec (models : List Nat) (atan2f : ℚ → ℚ → ℚ) :
    ∀ (steps : List ((List CarData × List LightData) × (ℕ → ℕ))) (w : World),
      models ≠ [] →
      carInv models w →
      (∀ st ∈ steps, (∀ d ∈ st.1.1, ¬ d.id = 0) ∧
        (∀ d ∈ st.1.1, ∀ o ∈ w.scene,
          ¬ (¬ o.id = 0 ∧ o.vao ∈ models) → ¬ d.id = o.id)) →
      carInv models (tickRun models atan2f steps w) ∧
      ((tickRun models atan2f steps w).scene.filter
          (fun o => ¬ (¬ o.id = 0 ∧ o.vao ∈ models)) =
        w.scene.filter (fun o => ¬ (¬ o.id = 0 ∧ o.vao ∈ models))) ∧
      (tickRun models atan2f steps w).obstacles = w.obstacles ∧
      (tickRun models atan2f steps w).roads = w.roads ∧
      (tickRun models atan2f steps w).destinations = w.destinations := by
  intro steps
  induction steps with
  | nil =>
    intro w hm hinv _
    exact ⟨hinv, rfl, rfl, rfl, rfl⟩
  | cons st rest ih =>
    intro w hm hinv hok
    have hst := hok st (List.mem_cons_self ..)
    obtain ⟨hinv', _, _, hdeco, hob, hro, hde⟩ :=
      tick_spec models st.2 atan2f st.1.1 st.1.2 w hm hinv hst.1 hst.2
    have hok' : ∀ st' ∈ rest, (∀ d ∈ st'.1.1, ¬ d.id = 0) ∧
        (∀ d ∈ st'.1.1, ∀ o ∈ (tick models st.2 atan2f st.1.1 st.1.2 w).scene,
          ¬ (¬ o.id = 0 ∧ o.vao ∈ models) → ¬ d.id = o.id) := by
      intro st' hst'
      refine ⟨(hok st' (List.mem_cons_of_mem _ hst')).1, ?_⟩
      intro d hd o ho hdo
      have hmemf : o ∈ (tick models st.2 atan2f st.1.1 st.1.2 w).scene.filter
          (fun o => ¬ (¬ o.id = 0 ∧ o.vao ∈ models)) :=
        List.mem_filter.mpr ⟨ho, decide_eq_true hdo⟩
      rw [hdeco] at hmemf
      have hmem := List.mem_filter.mp hmemf
      exact (hok st' (List.mem_cons_of_mem _ hst')).2 d hd o hmem.1
        (of_decide_eq_true hmem.2)
    have hrun := ih (tick models st.2 atan2f st.1.1 st.1.2 w) hm hinv' hok'
    exact ⟨hrun.1, hrun.2.1.trans hdeco, hrun.2.2.1.trans hob,
      hrun.2.2.2.1.trans hro, hrun.2.2.2.2.trans hde⟩

theorem tickRun_concat (models : List Nat) (atan2f : ℚ → ℚ → ℚ)
    (steps : List ((List CarData × List LightData) × (ℕ → ℕ)))
    (st : (List CarData × List LightData) × (ℕ → ℕ)) (w : World) :
    tickRun models atan2f (steps ++ [st]) w =
      tick models st.2 atan2f st.1.1 st.1.2 (tickRun models atan2f steps w) := by
  simp [tickRun, List.foldl_append]

/-! ### Lemmas for the idempotence of a repeated snapshot -/

/-- After an assignment pass with car models available, every car carries
a mesh handle. -/
theorem assignLoop_vao_ne_none (models : List Nat) (pick : ℕ → ℕ)
    (atan2f : ℚ → ℚ → ℚ) (hm : models ≠ []) :
    ∀ (cars : List Car) (n : ℕ) (sc : List SceneObj),
      ∀ c' ∈ (assignLoop models pick atan2f cars n sc).1, c'.vao ≠ none := by
  intro cars
  induction cars with
  | nil => intro n sc c' hc'; cases hc'
  | cons car rest ih =>
    intro n sc c' hc'
    rw [assignLoop] at hc'
    split at hc'
    · rcases List.mem_cons.mp hc' with h | h
      · rw [h, updateCarRotation_vao]
        intro hcon
        cases hcon
      · exact ih _ _ c' h
    · next hcond =>
      rcases List.mem_cons.mp hc' with h | h
      · rw [h, updateCarRotation_vao]
        intro hcv
        exact hcond ⟨hcv, hm⟩
      · exact ih _ _ c' h

/-- When every snapshot id is already tracked, getCars pushes no new car,
so any property of the vao fields is preserved. -/
theorem getCarsBody_vao_of_present {s : List CarData} {cs : List Car}
    (P : Option Nat → Prop)
    (hpres : ∀ d ∈ s, d.id ∈ cs.map (fun c => c.id))
    (hv : ∀ c ∈ cs, P c.vao) :
    ∀ c' ∈ getCarsBody s cs, P c'.vao := by
  have main :
      (∀ c' ∈ getCarsBody s cs, P c'.vao) ∧
      (∀ i, i ∈ cs.map (fun c => c.id) → i ∈ s.map (fun d => d.id) →
        i ∈ (getCarsBody s cs).map (fun c => c.id)) := by
    refine List.foldlRecOn
      (motive := fun acc =>
        (∀ c' ∈ acc, P c'.vao) ∧
        (∀ i, i ∈ cs.map (fun c => c.id) → i ∈ s.map (fun d => d.id) →
          i ∈ acc.map (fun c => c.id)))
      s applyCarEntry _ ⟨?_, ?_⟩ ?_
    · intro c hc
      exact hv c (List.mem_filter.mp hc).1
    · intro i hics his
      obtain ⟨c, hc, he⟩ := List.mem_map.mp hics
      refine List.mem_map.mpr ⟨c, List.mem_filter.mpr ⟨hc, ?_⟩, he⟩
      simp only [decide_eq_true_eq]
      rw [he]
      exact his
    · rintro acc ⟨hacc1, hacc2⟩ d hd
      constructor
      · intro c' hc'
        rw [applyCarEntry] at hc'
        split at hc'
        · rcases updFirstCar_mem c' hc' with hmm | ⟨c, hc, he⟩
          · exact hacc1 c' hmm
          · rw [he, updateExistingCar_vao]
            exact hacc1 c hc
        · next hany =>
          exfalso
          apply hany
          have : d.id ∈ acc.map (fun c => c.id) :=
            hacc2 d.id (hpres d hd) (List.mem_map_of_mem _ hd)
          obtain ⟨c, hc, he⟩ := List.mem_map.mp this
          simp only [List.any_eq_true, decide_eq_true_eq]
          exact ⟨c, hc, he⟩
      · intro i hics his
        exact id_mem_applyCarEntry (hacc2 i hics his)
  exact main.1

/-- The retirement phase is the identity when every truthy car-model scene
object is still tracked. -/
theorem updateCarsRemove_noop {models : List Nat} {ids : List EntId}
    {scene : List SceneObj}
    (h : ∀ o ∈ scene, ¬ o.id = 0 → o.vao ∈ models → o.id ∈ ids) :
    updateCarsRemove models ids scene = scene := by
  have hrid : removedIds models ids scene = [] := by
    rw [removedIds]
    have hfil : (scene.filter (fun o => ¬ o.id = 0 ∧ o.vao ∈ models)).filter
        (fun x => x.id ∉ ids) = [] := by
      apply List.filter_eq_nil_iff.mpr
      intro x hx
      have hx' := List.mem_filter.mp hx
      have hp := of_decide_eq_true hx'.2
      simp only [decide_eq_true_eq]
      intro hni
      exact hni (h x hx'.1 hp.1 hp.2)
    rw [hfil]
    rfl
  rw [updateCarsRemove_eq, hrid]
  apply List.filter_eq_self.mpr
  intro o _
  simp

/-! ### Lemmas about getTrafficLights and the indicator spheres -/

theorem updFirstLight_map_idpos (ls : List Light) (d : LightData) :
    (updFirstLight ls d).map (fun l => (l.id, l.position)) =
      ls.map (fun l => (l.id, l.position)) := by
  induction ls with
  | nil => rfl
  | cons l rest ih =>
    rw [updFirstLight]
    split
    · simp [applyLightState]
    · simp [ih]

theorem getTrafficLightsBody_map_idpos {s : List LightData} {ls : List Light}
    (h : ¬ ls.isEmpty = true) :
    (getTrafficLightsBody s ls).map (fun l => (l.id, l.position)) =
      ls.map (fun l => (l.id, l.position)) := by
  rw [getTrafficLightsBody, if_neg h]
  refine List.foldlRecOn
    (motive := fun acc => acc.map (fun l => (l.id, l.position)) =
      ls.map (fun l => (l.id, l.position)))
    s updFirstLight _ rfl ?_
  intro acc hacc d _
  rw [updFirstLight_map_idpos, hacc]

theorem updFirstLight_mem {ls : List Light} {d : LightData} :
    ∀ x ∈ updFirstLight ls d, x ∈ ls ∨ ∃ l ∈ ls, x = applyLightState l d := by
  induction ls with
  | nil => simp [updFirstLight]
  | cons l rest ih =>
    rw [updFirstLight]
    split
    · intro x hx
      rcases List.mem_cons.mp hx with h | h
      · exact Or.inr ⟨l, List.mem_cons_self .., h⟩
      · exact Or.inl (List.mem_cons_of_mem _ h)
    · intro x hx
      rcases List.mem_cons.mp hx with h | h
      · exact Or.inl (h ▸ List.mem_cons_self ..)
      · rcases ih x h with h' | ⟨l', hl', he⟩
        · exact Or.inl (List.mem_cons_of_mem _ h')
        · exact Or.inr ⟨l', List.mem_cons_of_mem _ hl', he⟩

/-- The state-to-color mapping is an invariant of getTrafficLights. -/
theorem getTrafficLightsBody_colors {s : List LightData} {ls : List Light}
    (h : ∀ l ∈ ls, l.color = if l.state then lightOnColor else lightOffColor) :
    ∀ l' ∈ getTrafficLightsBody s ls,
      l'.color = if l'.state then lightOnColor else lightOffColor := by
  rw [getTrafficLightsBody]
  split
  · intro l' hl'
    obtain ⟨d, _, he⟩ := List.mem_map.mp hl'
    rw [← he]
    rfl
  · refine List.foldlRecOn
      (motive := fun acc => ∀ l' ∈ acc,
        l'.color = if l'.state then lightOnColor else lightOffColor)
      s updFirstLight _ h ?_
    intro acc hacc d _ l' hl'
    rcases updFirstLight_mem l' hl' with hm | ⟨l, _, he⟩
    · exact hacc l' hm
    · rw [he]
      rfl

theorem updateSphereForLight_self {l : Light} {sps : List (EntId × SphereCols)} :
    ∀ p ∈ updateSphereForLight l sps, p.1 = l.id →
      p.2 = if l.state then sphereOnCols else sphereOffCols := by
  intro p hp hpe
  obtain ⟨q, hq, he⟩ := List.mem_map.mp hp
  by_cases hql : q.1 = l.id
  · rw [if_pos hql] at he
    rw [← he]
  · rw [if_neg hql] at he
    exact absurd (he ▸ hpe) hql

theorem updateSphereForLight_mem_ne {l : Light} {sps : List (EntId × SphereCols)}
    {p : EntId × SphereCols} (hp : p ∈ updateSphereForLight l sps)
    (hne : ¬ p.1 = l.id) : p ∈ sps := by
  obtain ⟨q, hq, he⟩ := List.mem_map.mp hp
  by_cases hql : q.1 = l.id
  · rw [if_pos hql] at he
    exact absurd (by rw [← he]; exact hql) hne
  · rw [if_neg hql] at he
    exact he ▸ hq

theorem spheres_frame {k : EntId} :
    ∀ (ls : List Light) (sps : List (EntId × SphereCols)),
      (∀ l' ∈ ls, ¬ l'.id = k) →
      ∀ p ∈ ls.foldl (fun acc l => updateSphereForLight l acc) sps,
        p.1 = k → p ∈ sps := by
  intro ls
  induction ls with
  | nil => intro sps _ p hp _; exact hp
  | cons l rest ih =>
    intro sps hne p hp hpk
    simp only [List.foldl_cons] at hp
    have hp' := ih _ (fun l' hl' => hne l' (List.mem_cons_of_mem _ hl')) p hp hpk
    exact updateSphereForLight_mem_ne hp'
      (by rw [hpk]; intro h; exact hne l (List.mem_cons_self ..) h.symm)

/-- After updateTrafficLightSpheres, the sphere of every tracked light
shows the color of that light's current state (duplicate-free light ids). -/
theorem updateSpheres_lookup :
    ∀ (ls : List Light) (sps : List (EntId × SphereCols)) (l : Light),
      l ∈ ls → (ls.map (fun x => x.id)).Nodup →
      ∀ p ∈ updateTrafficLightSpheres ls sps, p.1 = l.id →
        p.2 = if l.state then sphereOnCols else sphereOffCols := by
  intro ls
  induction ls with
  | nil => intro sps l hl; cases hl
  | cons l0 rest ih =>
    intro sps l hl hnodup p hp hpk
    have hnodup' : (∀ x ∈ rest, ¬ x.id = l0.id) ∧
        (rest.map (fun x => x.id)).Nodup := by simpa using hnodup
    rw [updateTrafficLightSpheres] at hp
    simp only [List.foldl_cons] at hp
    rcases List.mem_cons.mp hl with h | h
    · subst h
      have hp' := spheres_frame rest (updateSphereForLight l sps)
        (fun l' hl' he => hnodup'.1 l' hl' he) p hp hpk
      exact updateSphereForLight_self p hp' hpk
    · exact ih _ l h hnodup'.2 p hp hpk

/-! ### Lemmas about lerp and the per-car interpolation -/

theorem lerp_zero (a b : ℚ) : lerp a b 0 = a := by
  unfold lerp
  ring

theorem lerp_one (a b : ℚ) : lerp a b 1 = b := by
  unfold lerp
  ring

/-- The render position written by interpolateCars for a car with a
previous sample: x and z interpolated, y from the current sample, plus the
constant car display offsets. -/
theorem interpolateCar_renderPos (f : ℚ) (c : Car) (o : Vec3)
    (h : c.oldPosArray = some o) :
    (interpolateCar f c).renderPos =
      some ⟨lerp o.x c.position.x f, c.position.y + CAR_Y_OFFSET,
        lerp o.z c.position.z f + CAR_Z_OFFSET⟩ := by
  rcases ht : c.targetRotY with _ | t <;>
    simp [interpolateCar, h, ht]

/-! ### Lemmas about the model cache -/

theorem find?_append_single_ne {es : List (String × CachedModel)}
    {k k' : String} {m : CachedModel} (h : ¬ k' = k) :
    ((es ++ [(k, m)]).find? (fun p => p.1 = k')) =
      es.find? (fun p => p.1 = k') := by
  induction es with
  | nil =>
    simp only [List.nil_append, List.find?]
    have : ¬ k = k' := fun he => h he.symm
    simp [this]
  | cons e es' ih =>
    simp only [List.cons_append, List.find?]
    split
    · rfl
    · exact ih

theorem find?_append_single_self {es : List (String × CachedModel)}
    {k : String} {m : CachedModel}
    (h : es.find? (fun p => p.1 = k) = none) :
    ((es ++ [(k, m)]).find? (fun p => p.1 = k)) = some (k, m) := by
  induction es with
  | nil => simp [List.find?]
  | cons e es' ih =>
    rw [List.find?] at h
    rw [List.cons_append, List.find?]
    split at h
    · cases h
    · exact ih h

/-! ## Claims -/

/-- C2, counterexample: the render position produced by interpolateCars at
f = 0 does not equal the previous position sample exactly; a car first seen
at the origin (previous sample (0,0,0)) is rendered at
(0, 0.30, -0.15) because of the constant car display offsets. -/
theorem C2_counterexample :
    interpolateCars 0 (getCarsBody [⟨1, 0, 0, 0, none, 0, 0⟩] []) =
      [interpolateCar 0 (mkNewCar ⟨1, 0, 0, 0, none, 0, 0⟩)] ∧
    (mkNewCar ⟨1, 0, 0, 0, none, 0, 0⟩).oldPosArray = some ⟨0, 0, 0⟩ ∧
    (interpolateCar 0 (mkNewCar ⟨1, 0, 0, 0, none, 0, 0⟩)).renderPos =
      some ⟨0, 3/10, -(3/20)⟩ ∧
    ¬ (⟨0, 3/10, -(3/20)⟩ : Vec3) = ⟨0, 0, 0⟩ := by
  refine ⟨rfl, rfl, ?_, ?_⟩
  · rw [interpolateCar_renderPos 0 _ ⟨0, 0, 0⟩ rfl]
    norm_num [lerp, mkNewCar, CAR_Y_OFFSET, CAR_Z_OFFSET]
  · intro h
    simp only [Vec3.mk.injEq] at h
    exact absurd h.2.1 (by norm_num)

/-- C2 (amended): the drawScene fraction min(1, elapsed / duration) lies in
[0, 1] for nonnegative elapsed time; interpolateCars maps the per-car
interpolation over the cars; and for a car with a previous sample the
render position at f = 0 is the previous sample in x and z (at f = 1 the
current sample), with y taken from the current sample, plus the constant
car display offsets CAR_Y_OFFSET and CAR_Z_OFFSET. -/
theorem C2_interpolation_boundaries :
    (∀ e : ℚ, 0 ≤ e → 0 ≤ drawFract e ∧ drawFract e ≤ 1) ∧
    (∀ (fract : ℚ) (cars : List Car),
      interpolateCars fract cars = cars.map (interpolateCar fract)) ∧
    (∀ (c : Car) (o : Vec3), c.oldPosArray = some o →
      (interpolateCar 0 c).renderPos =
        some ⟨o.x, c.position.y + CAR_Y_OFFSET, o.z + CAR_Z_OFFSET⟩ ∧
      (interpolateCar 1 c).renderPos =
        some ⟨c.position.x, c.position.y + CAR_Y_OFFSET,
          c.position.z + CAR_Z_OFFSET⟩) := by
  refine ⟨?_, fun _ _ => rfl, ?_⟩
  · intro e he
    refine ⟨le_min (by norm_num) ?_, min_le_left _ _⟩
    exact div_nonneg he (by norm_num [duration])
  · intro c o h
    constructor
    · rw [interpolateCar_renderPos 0 c o h, lerp_zero, lerp_zero]
    · rw [interpolateCar_renderPos 1 c o h, lerp_one, lerp_one]

/-- A concrete car with a previous position sample, built by getCars. -/
def carW2 : Car := mkNewCar ⟨1, 2, 0, 3, none, 0, 0⟩

theorem C2_interpolation_boundaries_witness :
    ((0 : ℚ) ≤ 250 ∧ carW2.oldPosArray = some ⟨2, 0, 3⟩) ∧
    (0 ≤ drawFract 250 ∧ drawFract 250 ≤ 1) ∧
    ((interpolateCar 0 carW2).renderPos =
        some ⟨2, carW2.position.y + CAR_Y_OFFSET, 3 + CAR_Z_OFFSET⟩ ∧
      (interpolateCar 1 carW2).renderPos =
        some ⟨carW2.position.x, carW2.position.y + CAR_Y_OFFSET,
          carW2.position.z + CAR_Z_OFFSET⟩) :=
  ⟨⟨by decide, by decide⟩,
    C2_interpolation_boundaries.1 250 (by decide),
    C2_interpolation_boundaries.2.2 carW2 ⟨2, 0, 3⟩ (by decide)⟩

/-- C3, counterexample: the two wraparound loops normalize the delta into
the closed interval [-PI, PI], not into (-PI, PI]: for end - start = -PI
the normalized delta is -PI itself (not PI), so the claimed half-open
interval excludes a reachable boundary value. -/
theorem C3_counterexample :
    normalizeDelta (-piQ - 0) = -piQ ∧
    ¬ (-piQ < normalizeDelta (-piQ - 0)) ∧
    lerpAngle 0 (-piQ) 1 = -piQ := by
  have h1 : (-piQ - 0 : ℚ) = -piQ := by ring
  have h2 : normalizeDelta (-piQ : ℚ) = -piQ := by
    unfold normalizeDelta
    rw [reduceDown_of_le (by norm_num [piQ]), reduceUp_of_le le_rfl]
  refine ⟨by rw [h1, h2], ?_, ?_⟩
  · rw [h1, h2]
    exact lt_irrefl _
  · unfold lerpAngle
    rw [h1, h2]
    ring

/-- C3 (amended): lerpAngle normalizes the delta end - start into the
closed interval [-PI, PI] (the boundary delta -PI is kept as -PI rather
than mapped to PI), keeping it congruent to end - start modulo 2 PI, so a
single interpolation step with t in [0, 1] never moves more than PI from
the start angle and always takes a shortest angular path across the wrap
boundary. -/
theorem C3_lerpAngle_short_path (s e t : ℚ) (h0 : 0 ≤ t) (h1 : t ≤ 1) :
    (-piQ ≤ normalizeDelta (e - s) ∧ normalizeDelta (e - s) ≤ piQ) ∧
    (∃ k : ℤ, normalizeDelta (e - s) = (e - s) + 2 * piQ * k) ∧
    |lerpAngle s e t - s| ≤ piQ := by
  refine ⟨normalizeDelta_mem _, normalizeDelta_congr _, ?_⟩
  have hm := normalizeDelta_mem (e - s)
  have he : lerpAngle s e t - s = normalizeDelta (e - s) * t := by
    unfold lerpAngle
    ring
  rw [he, abs_mul, abs_of_nonneg h0]
  have habs : |normalizeDelta (e - s)| ≤ piQ := abs_le.mpr ⟨hm.1, hm.2⟩
  calc |normalizeDelta (e - s)| * t ≤ piQ * t :=
        mul_le_mul_of_nonneg_right habs h0
    _ ≤ piQ * 1 := mul_le_mul_of_nonneg_left h1 piQ_pos.le
    _ = piQ := mul_one piQ

theorem C3_lerpAngle_short_path_witness :
    ((0 : ℚ) ≤ 1 ∧ (1 : ℚ) ≤ 1) ∧
    ((-piQ ≤ normalizeDelta ((-3 : ℚ) - 3) ∧
        normalizeDelta ((-3 : ℚ) - 3) ≤ piQ) ∧
      (∃ k : ℤ, normalizeDelta ((-3 : ℚ) - 3) = ((-3 : ℚ) - 3) + 2 * piQ * k) ∧
      |lerpAngle 3 (-3) 1 - 3| ≤ piQ) :=
  ⟨⟨by decide, by decide⟩, C3_lerpAngle_short_path 3 (-3) 1 (by decide) (by decide)⟩

/-- updateCarRotation is the identity on a car whose displacement from its
previous sample stays within the 0.01 epsilon on both axes (the direction
fallback is not reached for such a car). -/
theorem updateCarRotation_no_move (f : ℚ → ℚ → ℚ) (c : Car) (o : Vec3)
    (h : c.oldPosArray = some o)
    (hm : ¬ (1 / 100 < |c.position.x - o.x| ∨ 1 / 100 < |c.position.z - o.z|)) :
    updateCarRotation f c = c := by
  simp only [updateCarRotation, h]
  rw [if_neg hm]

/-- The empty client state before the first snapshot. -/
def emptyWorld : World := ⟨[], [], [], [], [], [], []⟩

/-- The car state after updateCars assigns the only preloaded model (vao 7)
to the car that the snapshot [⟨1, 0, 0, 0, Up, 0, 0⟩] created. -/
def carC5 : Car :=
  { mkNewCar ⟨1, 0, 0, 0, some "Up", 0, 0⟩ with
    vao := some 7
    scale := some carScaleRec
    currentRotY := some 0
    targetRotY := some 0 }

/-- C5, counterexample: a car that is stationary this tick but has a
previous position sample does not fall back to the DIRECTION_ROTATIONS
table: after one reconciliation step for a car reported at the origin with
direction "Up", the target yaw is 0 (the value updateCars initialized),
not the table's PI for "Up". -/
theorem C5_counterexample :
    (tick [7] (fun _ => 0) (fun _ _ => 0) [⟨1, 0, 0, 0, some "Up", 0, 0⟩] []
        emptyWorld).cars = [updateCarRotation (fun _ _ => 0) carC5] ∧
    updateCarRotation (fun _ _ => 0) carC5 = carC5 ∧
    carC5.direction = some "Up" ∧
    carC5.targetRotY = some 0 ∧
    carC5.oldPosArray = some carC5.position ∧
    DIRECTION_ROTATIONS "Up" = some piQ ∧
    ¬ some (0 : ℚ) = some piQ := by
  refine ⟨rfl, ?_, rfl, rfl, rfl, rfl, ?_⟩
  · refine updateCarRotation_no_move _ _ ⟨0, 0, 0⟩ rfl ?_
    norm_num [carC5, mkNewCar]
  · simp only [Option.some.injEq]
    norm_num [piQ]

/-- C5 (amended): updateCarRotation sets the target yaw to atan2(dx, dz)
of the observed displacement whenever one of its components exceeds the
0.01 epsilon; a car with a previous sample whose displacement stays within
the epsilon is left entirely unchanged (no fallback); the
DIRECTION_ROTATIONS fallback applies only to a car without a previous
position sample whose direction is a key of the table. -/
theorem C5_updateCarRotation_branches (atan2f : ℚ → ℚ → ℚ) (c : Car) :
    (∀ o : Vec3, c.oldPosArray = some o →
      ((1 / 100 < |c.position.x - o.x| ∨ 1 / 100 < |c.position.z - o.z|) →
        (updateCarRotation atan2f c).targetRotY =
          some (atan2f (c.position.x - o.x) (c.position.z - o.z))) ∧
      (¬ (1 / 100 < |c.position.x - o.x| ∨ 1 / 100 < |c.position.z - o.z|) →
        updateCarRotation atan2f c = c)) ∧
    (c.oldPosArray = none → ∀ dir a, c.direction = some dir →
      DIRECTION_ROTATIONS dir = some a →
      (updateCarRotation atan2f c).targetRotY = some a) := by
  constructor
  · intro o h
    constructor
    · intro hmov
      simp only [updateCarRotation, h]
      rw [if_pos hmov]
    · intro hmov
      simp only [updateCarRotation, h]
      rw [if_neg hmov]
  · intro h dir a hd hr
    simp [updateCarRotation, h, hd, hr]

/-- A concrete car that moved one cell in x, built by the getCars update. -/
def carW5 : Car :=
  updateExistingCar (mkNewCar ⟨1, 0, 0, 0, none, 0, 0⟩) ⟨1, 1, 0, 0, none, 1, 0⟩

theorem C5_updateCarRotation_branches_witness :
    (carW5.oldPosArray = some ⟨0, 0, 0⟩ ∧
      ((1 : ℚ) / 100 < |carW5.position.x - (⟨0, 0, 0⟩ : Vec3).x| ∨
        (1 : ℚ) / 100 < |carW5.position.z - (⟨0, 0, 0⟩ : Vec3).z|)) ∧
    (updateCarRotation (fun x z => x - z) carW5).targetRotY = some 1 := by
  have hmov : (1 : ℚ) / 100 < |carW5.position.x - (⟨0, 0, 0⟩ : Vec3).x| ∨
      (1 : ℚ) / 100 < |carW5.position.z - (⟨0, 0, 0⟩ : Vec3).z| := by
    norm_num [carW5, updateExistingCar, mkNewCar]
  refine ⟨⟨by decide, hmov⟩, ?_⟩
  have h := ((C5_updateCarRotation_branches (fun x z => x - z) carW5).1 ⟨0, 0, 0⟩
    (by decide)).1 hmov
  rw [h]
  simp only [Option.some.injEq]
  norm_num [carW5, updateExistingCar, mkNewCar]

/-- C8: every network function catches failure (fetch rejection or non-ok
response, modelled as a none response) and leaves every tracked collection
unchanged; a failed advance call performs no category fetch at all. -/
theorem C8_failed_call_no_change (w : World) (rc : Option (List CarData))
    (rl : Option (List LightData)) (r : Option String) :
    getCars none w = w ∧ getObstacles none w = w ∧
    getTrafficLights none w = w ∧ getRoads none w = w ∧
    getDestinations none w = w ∧ initTrafficModel r w = w ∧
    update false rc rl w = w :=
  ⟨rfl, rfl, rfl, rfl, rfl, rfl, rfl⟩

/-- C9: a snapshot that reports the same identity more than once yields
exactly one tracked entity for that identity, whose position, direction
and future-position fields are those of the last occurrence in snapshot
order. -/
theorem C9_duplicate_id_later_wins (cs : List Car) (s : List CarData)
    (k : EntId) (hnodup : (cs.map (fun c => c.id)).Nodup)
    (hk : k ∈ s.map (fun d => d.id)) :
    ∃ d, (s.filter (fun e => e.id = k)).getLast? = some d ∧
      ((getCarsBody s cs).filter (fun c => c.id = k)).length = 1 ∧
      ∀ c ∈ getCarsBody s cs, c.id = k →
        c.position = ⟨d.x, d.y, d.z⟩ ∧ c.direction = d.direction ∧
          c.futurePos = ⟨d.futureX, d.y, d.futureZ⟩ := by
  obtain ⟨d, x, hlast, hfil, hmatch⟩ :=
    foldl_last_wins s (cs.filter (fun c => c.id ∈ s.map (fun d => d.id))) k
      (kept_nodup _ hnodup) hk
  have hfil' : (getCarsBody s cs).filter (fun c => c.id = k) = [x] := hfil
  refine ⟨d, hlast, by rw [hfil']; rfl, ?_⟩
  intro c hc hck
  have hmem : c ∈ (getCarsBody s cs).filter (fun c => c.id = k) :=
    List.mem_filter.mpr ⟨hc, decide_eq_true hck⟩
  rw [hfil'] at hmem
  have hcx : c = x := List.mem_singleton.mp hmem
  rw [hcx]
  exact hmatch

/-- The duplicate snapshot for the C9 witness: id 3 reported twice. -/
def snapW9 : List CarData :=
  [⟨3, 1, 1, 1, some "Left", 9, 9⟩, ⟨3, 2, 2, 2, some "Right", 8, 8⟩]

theorem C9_duplicate_id_later_wins_witness :
    ((([] : List Car).map (fun c => c.id)).Nodup ∧
      (3 : EntId) ∈ snapW9.map (fun d => d.id)) ∧
    (∃ d, (snapW9.filter (fun e => e.id = 3)).getLast? = some d ∧
      ((getCarsBody snapW9 []).filter (fun c => c.id = 3)).length = 1 ∧
      ∀ c ∈ getCarsBody snapW9 [], c.id = 3 →
        c.position = ⟨d.x, d.y, d.z⟩ ∧ c.direction = d.direction ∧
          c.futurePos = ⟨d.futureX, d.y, d.futureZ⟩) :=
  ⟨⟨by decide, by decide⟩,
    C9_duplicate_id_later_wins [] snapW9 3 (by decide) (by decide)⟩

/-- C10: once the traffic-light collection is nonempty, getTrafficLights
leaves the id list and the positions exactly as they are (same ids in the
same order, nothing added for unknown response ids, nothing removed); only
state and color can change. -/
theorem C10_light_id_set_fixed (s : List LightData) (ls : List Light)
    (h : ¬ ls.isEmpty = true) :
    (getTrafficLightsBody s ls).map (fun l => (l.id, l.position)) =
      ls.map (fun l => (l.id, l.position)) ∧
    (getTrafficLightsBody s ls).map (fun l => l.id) = ls.map (fun l => l.id) := by
  refine ⟨getTrafficLightsBody_map_idpos h, ?_⟩
  have h1 : (getTrafficLightsBody s ls).map (fun l => (l.id, l.position)) =
      ls.map (fun l => (l.id, l.position)) := getTrafficLightsBody_map_idpos h
  have h2 := congrArg (List.map Prod.fst) h1
  simpa [List.map_map, Function.comp] using h2

/-- The populated lights used by the C10 witness. -/
def lightsW10 : List Light := getTrafficLightsBody [⟨10, 0, 0, 0, true⟩] []

theorem C10_light_id_set_fixed_witness :
    (¬ lightsW10.isEmpty = true) ∧
    ((getTrafficLightsBody [⟨10, 0, 0, 0, false⟩, ⟨12, 2, 2, 2, true⟩]
        lightsW10).map (fun l => (l.id, l.position)) =
      lightsW10.map (fun l => (l.id, l.position)) ∧
    (getTrafficLightsBody [⟨10, 0, 0, 0, false⟩, ⟨12, 2, 2, 2, true⟩]
        lightsW10).map (fun l => l.id) = lightsW10.map (fun l => l.id)) :=
  ⟨by decide,
    C10_light_id_set_fixed [⟨10, 0, 0, 0, false⟩, ⟨12, 2, 2, 2, true⟩]
      lightsW10 (by decide)⟩

/-- C7: state true always maps to the green color parameters and state
false to the red ones, both for the light objects themselves (an invariant
of getTrafficLights, established on first population) and for the
indicator spheres recolored by updateTrafficLightSpheres; and updating an
already-tracked light id mutates in place, never creating a duplicate
light entity (the id list is unchanged). -/
theorem C7_traffic_light_colors :
    (∀ (s : List LightData) (ls : List Light), ¬ ls.isEmpty = true →
      (getTrafficLightsBody s ls).map (fun l => l.id) =
        ls.map (fun l => l.id)) ∧
    (∀ (s : List LightData) (ls : List Light),
      (∀ l ∈ ls, l.color = if l.state then lightOnColor else lightOffColor) →
      ∀ l' ∈ getTrafficLightsBody s ls,
        l'.color = if l'.state then lightOnColor else lightOffColor) ∧
    (∀ (ls : List Light) (sps : List (EntId × SphereCols)) (l : Light),
      l ∈ ls → (ls.map (fun x => x.id)).Nodup →
      ∀ p ∈ updateTrafficLightSpheres ls sps, p.1 = l.id →
        p.2 = if l.state then sphereOnCols else sphereOffCols) := by
  refine ⟨?_, ?_, updateSpheres_lookup⟩
  · intro s ls h
    have h1 : (getTrafficLightsBody s ls).map (fun l => (l.id, l.position)) =
        ls.map (fun l => (l.id, l.position)) := getTrafficLightsBody_map_idpos h
    have h2 := congrArg (List.map Prod.fst) h1
    simpa [List.map_map, Function.comp] using h2
  · intro s ls h
    exact getTrafficLightsBody_colors h

/-- The concrete light for the C7 witness. -/
def lightW7 : Light := mkNewLight ⟨10, 0, 0, 0, false⟩

theorem C7_traffic_light_colors_witness :
    ((¬ (lightsW10.isEmpty = true)) ∧
      (∀ l ∈ lightsW10, l.color = if l.state then lightOnColor else lightOffColor) ∧
      lightW7 ∈ [lightW7] ∧ (([lightW7].map (fun x => x.id)).Nodup)) ∧
    ((getTrafficLightsBody [⟨10, 0, 0, 0, false⟩] lightsW10).map (fun l => l.id) =
        lightsW10.map (fun l => l.id)) ∧
    (∀ l' ∈ getTrafficLightsBody [⟨10, 0, 0, 0, false⟩] lightsW10,
      l'.color = if l'.state then lightOnColor else lightOffColor) ∧
    (∀ p ∈ updateTrafficLightSpheres [lightW7] [(10, sphereOnCols)],
      p.1 = lightW7.id →
        p.2 = if lightW7.state then sphereOnCols else sphereOffCols) :=
  ⟨⟨by decide, by decide, by decide, by decide⟩,
    C7_traffic_light_colors.1 [⟨10, 0, 0, 0, false⟩] lightsW10 (by decide),
    C7_traffic_light_colors.2.1 [⟨10, 0, 0, 0, false⟩] lightsW10 (by decide),
    C7_traffic_light_colors.2.2 [lightW7] [(10, sphereOnCols)] lightW7
      (by decide) (by decide)⟩

theorem cacheLookup_append_ne (es : List (String × CachedModel)) (n n' : ℕ)
    {k k' : String} (m : CachedModel) (h : ¬ k' = k) :
    cacheLookup ⟨es ++ [(k, m)], n⟩ k' = cacheLookup ⟨es, n'⟩ k' := by
  show ((es ++ [(k, m)]).find? (fun p => p.1 = k')).map (fun p => p.2) =
    (es.find? (fun p => p.1 = k')).map (fun p => p.2)
  rw [find?_append_single_ne h]

theorem cacheLookup_append_self (es : List (String × CachedModel)) (n n' : ℕ)
    {k : String} (m : CachedModel) (h : cacheLookup ⟨es, n'⟩ k = none) :
    cacheLookup ⟨es ++ [(k, m)], n⟩ k = some m := by
  have h' : (es.find? (fun p => p.1 = k)).map (fun p => p.2) = none := h
  have hf : es.find? (fun p => p.1 = k) = none := Option.map_eq_none'.mp h'
  show ((es ++ [(k, m)]).find? (fun p => p.1 = k)).map (fun p => p.2) = some m
  rw [find?_append_single_self hf]
  rfl

/-- C6, counterexample: two different brightness values for the same mesh
name produce two distinct handles whose per-vertex color data are
identical (not different): with no material file the loader pushes the
fixed gray for every face vertex, regardless of the brightness
multiplier. -/
def objC6 : List ObjCmd := [ObjCmd.v 0 0 0, ObjCmd.f [⟨some 1, none, none⟩]]

theorem C6_counterexample :
    ((preloadModel ⟨[], 0⟩ "car" 1 (some objC6) none).1.map
      (fun m => m.allocId)) = some 0 ∧
    ((preloadModel (preloadModel ⟨[], 0⟩ "car" 1 (some objC6) none).2 "car" 2
        (some objC6) none).1.map (fun m => m.allocId)) = some 1 ∧
    ¬ (0 : ℕ) = 1 ∧
    ((preloadModel ⟨[], 0⟩ "car" 1 (some objC6) none).1.map
        (fun m => m.arrays.a_color) =
      (preloadModel (preloadModel ⟨[], 0⟩ "car" 1 (some objC6) none).2 "car" 2
        (some objC6) none).1.map (fun m => m.arrays.a_color)) :=
  ⟨rfl, rfl, by decide, rfl⟩

/-- C6 (amended): preloadModel memoizes by the (name, brightness) cache
key; after a miss each of the two keys, a repeated request for either pair
returns the very same cached handle without touching the cache again (no
refetch, no reparse, no rebuild, whatever the second fetch would have
returned), getCachedModel returns the same handles, and the two handles
are distinct allocations, each holding the attribute streams parsed at its
own brightness (their color data coincide exactly when the two parses
agree, for instance when no material is active). -/
theorem C6_cache_memoization (st : ModelCache) (name : String) (b1 b2 : ℚ)
    (obj obj2 : List ObjCmd) (fm fm2 : Option (List MtlCmd))
    (h1 : cacheLookup st (cacheKey name b1) = none)
    (h2 : cacheLookup st (cacheKey name b2) = none)
    (hk : ¬ cacheKey name b1 = cacheKey name b2) :
    ∃ m1 m2 : CachedModel, ∃ st2 : ModelCache,
      (preloadModel st name b1 (some obj) fm).1 = some m1 ∧
      preloadModel (preloadModel st name b1 (some obj) fm).2 name b2 (some obj)
        fm = (some m2, st2) ∧
      preloadModel st2 name b1 (some obj2) fm2 = (some m1, st2) ∧
      preloadModel st2 name b2 (some obj2) fm2 = (some m2, st2) ∧
      getCachedModel st2 name b1 = some m1 ∧
      getCachedModel st2 name b2 = some m2 ∧
      ¬ m1.allocId = m2.allocId ∧
      m1.arrays = loadObjWithMtl obj fm b1 ∧
      m2.arrays = loadObjWithMtl obj fm b2 := by
  have e1 : preloadModel st name b1 (some obj) fm =
      (some ⟨st.nextAlloc, loadObjWithMtl obj fm b1⟩,
        ⟨st.entries ++ [(cacheKey name b1,
          ⟨st.nextAlloc, loadObjWithMtl obj fm b1⟩)], st.nextAlloc + 1⟩) := by
    simp only [preloadModel, h1]
  have l2 : cacheLookup
      (⟨st.entries ++ [(cacheKey name b1,
        ⟨st.nextAlloc, loadObjWithMtl obj fm b1⟩)], st.nextAlloc + 1⟩ : ModelCache)
      (cacheKey name b2) = none := by
    have ha := cacheLookup_append_ne st.entries (st.nextAlloc + 1) st.nextAlloc
      (⟨st.nextAlloc, loadObjWithMtl obj fm b1⟩ : CachedModel)
      (fun he => hk he.symm)
    exact ha.trans h2
  have e2 : preloadModel
      (⟨st.entries ++ [(cacheKey name b1,
        ⟨st.nextAlloc, loadObjWithMtl obj fm b1⟩)], st.nextAlloc + 1⟩ : ModelCache)
      name b2 (some obj) fm =
      (some ⟨st.nextAlloc + 1, loadObjWithMtl obj fm b2⟩,
        ⟨(st.entries ++ [(cacheKey name b1,
            ⟨st.nextAlloc, loadObjWithMtl obj fm b1⟩)]) ++
          [(cacheKey name b2, ⟨st.nextAlloc + 1, loadObjWithMtl obj fm b2⟩)],
          st.nextAlloc + 2⟩) := by
    simp only [preloadModel, l2]
  have l3 : cacheLookup
      (⟨(st.entries ++ [(cacheKey name b1,
          ⟨st.nextAlloc, loadObjWithMtl obj fm b1⟩)]) ++
        [(cacheKey name b2, ⟨st.nextAlloc + 1, loadObjWithMtl obj fm b2⟩)],
        st.nextAlloc + 2⟩ : ModelCache) (cacheKey name b1) =
      some ⟨st.nextAlloc, loadObjWithMtl obj fm b1⟩ := by
    have ha := cacheLookup_append_ne
      (st.entries ++ [(cacheKey name b1, ⟨st.nextAlloc, loadObjWithMtl obj fm b1⟩)])
      (st.nextAlloc + 2) (st.nextAlloc + 1)
      (⟨st.nextAlloc + 1, loadObjWithMtl obj fm b2⟩ : CachedModel) hk
    have hb := cacheLookup_append_self st.entries (st.nextAlloc + 1) st.nextAlloc
      (⟨st.nextAlloc, loadObjWithMtl obj fm b1⟩ : CachedModel) h1
    exact ha.trans hb
  have l4 : cacheLookup
      (⟨(st.entries ++ [(cacheKey name b1,
          ⟨st.nextAlloc, loadObjWithMtl obj fm b1⟩)]) ++
        [(cacheKey name b2, ⟨st.nextAlloc + 1, loadObjWithMtl obj fm b2⟩)],
        st.nextAlloc + 2⟩ : ModelCache) (cacheKey name b2) =
      some ⟨st.nextAlloc + 1, loadObjWithMtl obj fm b2⟩ := by
    exact cacheLookup_append_self
      (st.entries ++ [(cacheKey name b1, ⟨st.nextAlloc, loadObjWithMtl obj fm b1⟩)])
      (st.nextAlloc + 2) (st.nextAlloc + 1)
      (⟨st.nextAlloc + 1, loadObjWithMtl obj fm b2⟩ : CachedModel) l2
  refine ⟨⟨st.nextAlloc, loadObjWithMtl obj fm b1⟩,
    ⟨st.nextAlloc + 1, loadObjWithMtl obj fm b2⟩,
    ⟨(st.entries ++ [(cacheKey name b1,
        ⟨st.nextAlloc, loadObjWithMtl obj fm b1⟩)]) ++
      [(cacheKey name b2, ⟨st.nextAlloc + 1, loadObjWithMtl obj fm b2⟩)],
      st.nextAlloc + 2⟩,
    by rw [e1], by rw [e1]; exact e2, ?_, ?_, by exact l3, by exact l4,
    by show ¬ st.nextAlloc = st.nextAlloc + 1; omega, rfl, rfl⟩
  · simp only [preloadModel, l3]
  · simp only [preloadModel, l4]

theorem C6_cache_memoization_witness :
    (cacheLookup ⟨[], 0⟩ (cacheKey "car" 1) = none ∧
      cacheLookup ⟨[], 0⟩ (cacheKey "car" 2) = none ∧
      ¬ cacheKey "car" 1 = cacheKey "car" 2) ∧
    (∃ m1 m2 : CachedModel, ∃ st2 : ModelCache,
      (preloadModel ⟨[], 0⟩ "car" 1 (some objC6) none).1 = some m1 ∧
      preloadModel (preloadModel ⟨[], 0⟩ "car" 1 (some objC6) none).2 "car" 2
        (some objC6) none = (some m2, st2) ∧
      preloadModel st2 "car" 1 (some []) none = (some m1, st2) ∧
      preloadModel st2 "car" 2 (some []) none = (some m2, st2) ∧
      getCachedModel st2 "car" 1 = some m1 ∧
      getCachedModel st2 "car" 2 = some m2 ∧
      ¬ m1.allocId = m2.allocId ∧
      m1.arrays = loadObjWithMtl objC6 none 1 ∧
      m2.arrays = loadObjWithMtl objC6 none 2) :=
  ⟨⟨by decide, by decide, by decide⟩,
    C6_cache_memoization ⟨[], 0⟩ "car" 1 2 objC6 [] none none
      (by decide) (by decide) (by decide)⟩

/-- C1, counterexample: the retirement phase of updateCars only examines
scene objects with a truthy id (obj.id && ...), so a car with id 0 that
disappears from the snapshot is removed from the cars array but its scene
object is never retired: after applying the snapshot [car 0] and then the
empty snapshot, the cars array is empty while a car-model scene object
with id 0 is still in the Scene Graph. -/
theorem C1_counterexample :
    (tick [7] (fun _ => 0) (fun _ _ => 0) [] []
      (tick [7] (fun _ => 0) (fun _ _ => 0) [⟨0, 5, 0, 5, some "Up", 5, 5⟩] []
        emptyWorld)).cars = [] ∧
    (tick [7] (fun _ => 0) (fun _ _ => 0) [] []
      (tick [7] (fun _ => 0) (fun _ _ => 0) [⟨0, 5, 0, 5, some "Up", 5, 5⟩] []
        emptyWorld)).scene = [⟨0, 7⟩] ∧
    (7 : ℕ) ∈ [7] ∧
    ¬ (0 : EntId) ∈ ([] : List CarData).map (fun d => d.id) :=
  ⟨rfl, rfl, by decide, by simp⟩

/-- C1 (amended): over any run of successful polling ticks from a
well-formed state, provided every snapshot id is truthy (nonzero, since the
retirement filter tests obj.id for truthiness) and avoids the ids of the
decorative scene objects, after the last tick the cars array tracks
exactly the ids of the most recent snapshot, every truthy car-model scene
object is one of them, every snapshot id has its car-model scene object,
and the static categories (obstacles, roads, destinations, and the
decorative scene objects built from them) are never modified after their
single load. -/
theorem C1_scene_tracks_latest_snapshot (models : List Nat)
    (atan2f : ℚ → ℚ → ℚ)
    (steps : List ((List CarData × List LightData) × (ℕ → ℕ)))
    (st : (List CarData × List LightData) × (ℕ → ℕ)) (w0 : World)
    (hm : models ≠ [])
    (hinv : carInv models w0)
    (hok : ∀ t ∈ steps ++ [st], (∀ d ∈ t.1.1, ¬ d.id = 0) ∧
      (∀ d ∈ t.1.1, ∀ o ∈ w0.scene,
        ¬ (¬ o.id = 0 ∧ o.vao ∈ models) → ¬ d.id = o.id)) :
    (∀ i : EntId,
      (∃ c ∈ (tickRun models atan2f (steps ++ [st]) w0).cars, c.id = i) ↔
        i ∈ st.1.1.map (fun d => d.id)) ∧
    (∀ o ∈ (tickRun models atan2f (steps ++ [st]) w0).scene,
      ¬ o.id = 0 → o.vao ∈ models → o.id ∈ st.1.1.map (fun d => d.id)) ∧
    (∀ d ∈ st.1.1, ∃ o ∈ (tickRun models atan2f (steps ++ [st]) w0).scene,
      o.id = d.id ∧ o.vao ∈ models) ∧
    (tickRun models atan2f (steps ++ [st]) w0).obstacles = w0.obstacles ∧
    (tickRun models atan2f (steps ++ [st]) w0).roads = w0.roads ∧
    (tickRun models atan2f (steps ++ [st]) w0).destinations = w0.destinations ∧
    ((tickRun models atan2f (steps ++ [st]) w0).scene.filter
        (fun o => ¬ (¬ o.id = 0 ∧ o.vao ∈ models)) =
      w0.scene.filter (fun o => ¬ (¬ o.id = 0 ∧ o.vao ∈ models))) := by
  have hokpre : ∀ t ∈ steps, (∀ d ∈ t.1.1, ¬ d.id = 0) ∧
      (∀ d ∈ t.1.1, ∀ o ∈ w0.scene,
        ¬ (¬ o.id = 0 ∧ o.vao ∈ models) → ¬ d.id = o.id) :=
    fun t ht => hok t (List.mem_append_left _ ht)
  obtain ⟨hinv1, hdeco1, hob1, hro1, hde1⟩ :=
    tickRun_spec models atan2f steps w0 hm hinv hokpre
  have hokst := hok st (List.mem_append_right _ (List.mem_singleton.mpr rfl))
  have hsd' : ∀ d ∈ st.1.1, ∀ o ∈ (tickRun models atan2f steps w0).scene,
      ¬ (¬ o.id = 0 ∧ o.vao ∈ models) → ¬ d.id = o.id := by
    intro d hd o ho hdo
    have hmemf : o ∈ (tickRun models atan2f steps w0).scene.filter
        (fun o => ¬ (¬ o.id = 0 ∧ o.vao ∈ models)) :=
      List.mem_filter.mpr ⟨ho, decide_eq_true hdo⟩
    rw [hdeco1] at hmemf
    have hmem := List.mem_filter.mp hmemf
    exact hokst.2 d hd o hmem.1 (of_decide_eq_true hmem.2)
  obtain ⟨hinv2, hiff, hpres, hdeco2, hob2, hro2, hde2⟩ :=
    tick_spec models st.2 atan2f st.1.1 st.1.2 (tickRun models atan2f steps w0)
      hm hinv1 hokst.1 hsd'
  rw [tickRun_concat]
  refine ⟨hiff, ?_, hpres, hob2.trans hob1, hro2.trans hro1, hde2.trans hde1,
    hdeco2.trans hdeco1⟩
  intro o ho h0 hv
  obtain ⟨c, hc, he⟩ := hinv2.2.2.2.2.1 o ho h0 hv
  rw [← he]
  exact (hiff c.id).mp ⟨c, hc, rfl⟩

/-- The snapshot and tick input for the C1 witness. -/
def snapW1 : List CarData :=
  [⟨1, 0, 0, 0, some "Up", 0, 0⟩, ⟨2, 5, 0, 5, some "Down", 5, 5⟩]

/-- The single successful tick applied by the C1 witness. -/
def stepW1 : (List CarData × List LightData) × (ℕ → ℕ) :=
  ((snapW1, []), fun _ => 0)

theorem C1_scene_tracks_latest_snapshot_witness :
    (([7] : List Nat) ≠ [] ∧ carInv [7] emptyWorld ∧
      (∀ t ∈ ([] ++ [stepW1]), (∀ d ∈ t.1.1, ¬ d.id = 0) ∧
        (∀ d ∈ t.1.1, ∀ o ∈ emptyWorld.scene,
          ¬ (¬ o.id = 0 ∧ o.vao ∈ ([7] : List Nat)) → ¬ d.id = o.id))) ∧
    ((∀ i : EntId,
      (∃ c ∈ (tickRun [7] (fun _ _ => 0) ([] ++ [stepW1]) emptyWorld).cars,
        c.id = i) ↔ i ∈ stepW1.1.1.map (fun d => d.id)) ∧
    (∀ o ∈ (tickRun [7] (fun _ _ => 0) ([] ++ [stepW1]) emptyWorld).scene,
      ¬ o.id = 0 → o.vao ∈ [7] → o.id ∈ stepW1.1.1.map (fun d => d.id)) ∧
    (∀ d ∈ stepW1.1.1,
      ∃ o ∈ (tickRun [7] (fun _ _ => 0) ([] ++ [stepW1]) emptyWorld).scene,
        o.id = d.id ∧ o.vao ∈ [7]) ∧
    (tickRun [7] (fun _ _ => 0) ([] ++ [stepW1]) emptyWorld).obstacles =
      emptyWorld.obstacles ∧
    (tickRun [7] (fun _ _ => 0) ([] ++ [stepW1]) emptyWorld).roads =
      emptyWorld.roads ∧
    (tickRun [7] (fun _ _ => 0) ([] ++ [stepW1]) emptyWorld).destinations =
      emptyWorld.destinations ∧
    ((tickRun [7] (fun _ _ => 0) ([] ++ [stepW1]) emptyWorld).scene.filter
        (fun o => ¬ (¬ o.id = 0 ∧ o.vao ∈ ([7] : List Nat))) =
      emptyWorld.scene.filter
        (fun o => ¬ (¬ o.id = 0 ∧ o.vao ∈ ([7] : List Nat))))) :=
  ⟨⟨by decide, by simp [carInv, emptyWorld], by decide⟩,
    C1_scene_tracks_latest_snapshot [7] (fun _ _ => 0) [] stepW1 emptyWorld
      (by decide) (by simp [carInv, emptyWorld]) (by decide)⟩

/-- C4: applying the identical car snapshot twice in a row creates no
entity and retires no entity on the second application: the tracked id
list is unchanged and the Scene Graph is exactly the same list of objects
after the second tick as after the first (regardless of the random model
picks and of the light responses). -/
theorem C4_reconciliation_idempotent (models : List Nat) (pick1 pick2 : ℕ → ℕ)
    (atan2f : ℚ → ℚ → ℚ) (s : List CarData) (ls1 ls2 : List LightData)
    (w0 : World) :
    (tick models pick2 atan2f s ls2 (tick models pick1 atan2f s ls1 w0)).cars.map
        (fun c => c.id) =
      (tick models pick1 atan2f s ls1 w0).cars.map (fun c => c.id) ∧
    (tick models pick2 atan2f s ls2 (tick models pick1 atan2f s ls1 w0)).scene =
      (tick models pick1 atan2f s ls1 w0).scene := by
  have hcars1 : (tick models pick1 atan2f s ls1 w0).cars =
      (assignLoop models pick1 atan2f (getCarsBody s w0.cars) 0
        (updateCarsRemove models
          ((getCarsBody s w0.cars).map (fun c => c.id)) w0.scene)).1 := rfl
  have hscene1 : (tick models pick1 atan2f s ls1 w0).scene =
      (assignLoop models pick1 atan2f (getCarsBody s w0.cars) 0
        (updateCarsRemove models
          ((getCarsBody s w0.cars).map (fun c => c.id)) w0.scene)).2 := rfl
  have f1 : (tick models pick1 atan2f s ls1 w0).cars.map (fun c => c.id) =
      (getCarsBody s w0.cars).map (fun c => c.id) := by
    rw [hcars1]
    exact assignLoop_map_id models pick1 atan2f _ 0 _
  have f2 : ∀ c ∈ (tick models pick1 atan2f s ls1 w0).cars,
      c.id ∈ s.map (fun d => d.id) := by
    intro c hc
    have h : c.id ∈ (getCarsBody s w0.cars).map (fun c => c.id) := by
      rw [← f1]
      exact List.mem_map_of_mem _ hc
    obtain ⟨c1, hc1, he⟩ := List.mem_map.mp h
    exact he ▸ getCarsBody_id_sub c1 hc1
  have f3 : ∀ d ∈ s, d.id ∈ (tick models pick1 atan2f s ls1 w0).cars.map
      (fun c => c.id) := by
    intro d hd
    rw [f1]
    exact getCarsBody_id_present d hd
  have f4 : (getCarsBody s (tick models pick1 atan2f s ls1 w0).cars).map
      (fun c => c.id) =
      (tick models pick1 atan2f s ls1 w0).cars.map (fun c => c.id) :=
    getCarsBody_map_id_of_all f2 f3
  have f5 : ∀ o ∈ (tick models pick1 atan2f s ls1 w0).scene,
      ¬ o.id = 0 → o.vao ∈ models →
      o.id ∈ (tick models pick1 atan2f s ls1 w0).cars.map (fun c => c.id) := by
    intro o ho h0 hv
    rw [hscene1] at ho
    rcases assignLoop_scene_sub models pick1 atan2f _ 0 _ o ho with
      h | ⟨_, c, hc, he, _⟩
    · have hos : o ∈ w0.scene :=
        (updateCarsRemove_sublist models _ w0.scene).subset h
      have hco := (truthyCar_kept hos h0 hv).mp h
      rw [f1]
      exact hco
    · rw [f1]
      exact List.mem_map.mpr ⟨c, hc, he⟩
  have f6 : updateCarsRemove models
      ((getCarsBody s (tick models pick1 atan2f s ls1 w0).cars).map
        (fun c => c.id))
      (tick models pick1 atan2f s ls1 w0).scene =
      (tick models pick1 atan2f s ls1 w0).scene := by
    rw [f4]
    exact updateCarsRemove_noop f5
  have f7 : ∀ c ∈ getCarsBody s (tick models pick1 atan2f s ls1 w0).cars,
      ¬ (c.vao = none ∧ models ≠ []) := by
    by_cases hme : models = []
    · intro c _ h
      exact h.2 hme
    · have hvne : ∀ c ∈ (tick models pick1 atan2f s ls1 w0).cars,
          c.vao ≠ none := by
        intro c hc
        rw [hcars1] at hc
        exact assignLoop_vao_ne_none models pick1 atan2f hme _ 0 _ c hc
      have hres := getCarsBody_vao_of_present (fun vo => vo ≠ none) f3 hvne
      intro c hc h
      exact hres c hc h.1
  constructor
  · have hcars2 : (tick models pick2 atan2f s ls2
        (tick models pick1 atan2f s ls1 w0)).cars =
      (assignLoop models pick2 atan2f
        (getCarsBody s (tick models pick1 atan2f s ls1 w0).cars) 0
        (updateCarsRemove models
          ((getCarsBody s (tick models pick1 atan2f s ls1 w0).cars).map
            (fun c => c.id))
          (tick models pick1 atan2f s ls1 w0).scene)).1 := rfl
    rw [hcars2, assignLoop_map_id models pick2 atan2f _ 0 _, f4]
  · have hscene2 : (tick models pick2 atan2f s ls2
        (tick models pick1 atan2f s ls1 w0)).scene =
      (assignLoop models pick2 atan2f
        (getCarsBody s (tick models pick1 atan2f s ls1 w0).cars) 0
        (updateCarsRemove models
          ((getCarsBody s (tick models pick1 atan2f s ls1 w0).cars).map
            (fun c => c.id))
          (tick models pick1 atan2f s ls1 w0).scene)).2 := rfl
    rw [hscene2, assignLoop_no_assign models pick2 atan2f _ 0 _ f7, f6]

end Traffic
